/-
Verification of the crash-dashboard normalization pipeline
(src/dashboard.py) against its natural-language specification.

The development shallowly embeds the data functions of dashboard.py:
  * `parse_date`            (dashboard.py lines 180-193)
  * `extract_crash_count`   (dashboard.py lines 196-217)
  * `categorize_crash_type` (dashboard.py lines 220-230)
  * `process_dataframe`     (dashboard.py lines 233-270)
  * `ensure_columns`        (dashboard.py lines 370-377, inside main)
  * the session-state initialization / sidebar access of main
    (dashboard.py lines 310-315 and 399)

Modelling conventions:
  * pandas cells are `Value` (null = NaN/None, plus strings, ints, parsed
    Timestamps and Periods).  Python `str()` of a cell is `pyStr`.
  * Exceptions are modelled by `Option`: a function that can raise an
    uncaught Python exception returns `none` in that case.
  * The floats the extractor builds come from decimal digit/dot groups
    and are multiplied by powers of ten and truncated; they are modelled
    exactly as `num / 10 ^ exp` in integer arithmetic.  For the
    magnitudes appearing in the claims IEEE doubles are exact, so the
    model agrees with the source there.
  * `pd.Timestamp` bounds (1677-09-21 00:12 .. 2262-04-11 23:47) make a
    midnight timestamp constructible exactly for dates in
    [1677-09-22, 2262-04-11]; `inTsBounds` encodes that.
  * The pandas `Series.str` accessor acts element-wise on object-dtype
    columns, mapping non-string elements (and NaN) to NaN; `strCell`
    models that.  Columns of non-object dtype (possible only when no cell
    of the column is a string) raise on `.str` and are outside the model.
-/
import Mathlib

set_option autoImplicit false

namespace Crash

/-! ### Characters and digit strings -/

/-- The decimal digit character for `n` (callers keep `n ≤ 9`;
larger arguments clamp to `'9'`). -/
def digitChar (n : Nat) : Char :=
  if n = 0 then '0' else if n = 1 then '1' else if n = 2 then '2'
  else if n = 3 then '3' else if n = 4 then '4' else if n = 5 then '5'
  else if n = 6 then '6' else if n = 7 then '7' else if n = 8 then '8' else '9'

/-- Two-digit zero-padded rendering (`strftime` `%d` / `%m`). -/
def pad2Chars (n : Nat) : List Char := [digitChar (n / 10 % 10), digitChar (n % 10)]

/-- Four-digit zero-padded rendering (`strftime` `%Y` for years in the
pandas-representable range). -/
def pad4Chars (n : Nat) : List Char :=
  [digitChar (n / 1000 % 10), digitChar (n / 100 % 10), digitChar (n / 10 % 10),
   digitChar (n % 10)]

def pad2 (n : Nat) : String := ⟨pad2Chars n⟩
def pad4 (n : Nat) : String := ⟨pad4Chars n⟩

/-- Numeric value of a digit string (fold, most significant first). -/
def digitsVal (cs : List Char) : Nat :=
  cs.foldl (fun a c => a * 10 + (c.toNat - 48)) 0

/-- Python's whitespace class for `str.strip` / regex `\s` (ASCII). -/
def isPyWs (c : Char) : Bool :=
  c = ' ' || c = '\t' || c = '\n' || c = '\r' || c = '\x0b' || c = '\x0c'

/-- Python `str.strip()`: drop whitespace from both ends. -/
def pyStrip (s : String) : String :=
  ⟨(((s.data.dropWhile isPyWs).reverse.dropWhile isPyWs).reverse)⟩

/-- Python `str.upper()` (ASCII). -/
def pyUpper (s : String) : String := ⟨s.data.map Char.toUpper⟩

/-- Python `str.lower()` (ASCII). -/
def pyLower (s : String) : String := ⟨s.data.map Char.toLower⟩

/-- Python `str.replace(a, b)` for one-character patterns (the source
only replaces the single characters `'\n'` and `'\r'`). -/
def replaceCh (a b : Char) (s : String) : String :=
  ⟨s.data.map (fun c => if c = a then b else c)⟩

/-! ### Cell values -/

/-- A date as held by a `pd.Timestamp` (normalized to midnight). -/
structure PDate where
  year : Nat
  month : Nat
  day : Nat
deriving DecidableEq, Repr

/-- One pandas cell.  `null` is NaN/None/NaT; `date` is a parsed
`pd.Timestamp`; `period` is a `pd.Period('M')`. -/
inductive Value where
  | null
  | str (s : String)
  | int (n : Int)
  | date (d : PDate)
  | period (y m : Nat)
deriving DecidableEq, Repr

/-- `pd.notna`. -/
def notna (v : Value) : Bool := v ≠ Value.null

/-- Python `str()` of a cell value.  `str(nan) = "nan"`,
`str(Timestamp) = "YYYY-MM-DD HH:MM:SS"` (midnight here),
`str(Period('M')) = "YYYY-MM"`. -/
def pyStr (v : Value) : String :=
  match v with
  | Value.null => "nan"
  | Value.str s => s
  | Value.int n => toString n
  | Value.date d => pad4 d.year ++ "-" ++ pad2 d.month ++ "-" ++ pad2 d.day ++ " 00:00:00"
  | Value.period y m => pad4 y ++ "-" ++ pad2 m

/-! ### Substring search (Python `needle in haystack`) -/

def hasSubAux (needle : List Char) : List Char → Bool
  | [] => needle.isEmpty
  | c :: t => List.isPrefixOf needle (c :: t) || hasSubAux needle t

/-- Python's substring test `needle in hay`. -/
def hasSub (hay needle : String) : Bool := hasSubAux needle.data hay.data

/-! ### Date parsing: `parse_date` (dashboard.py lines 180-193)

`parse_date` tries six explicit `strptime` formats in order and falls
back to `pd.to_datetime(s, dayfirst=True)`.  The explicit formats are
embedded exactly; the permissive dateutil fallback is not reproducible
and is taken as a parameter `fb` of the pipeline: every theorem below
holds for an arbitrary fallback. -/

/-- A `strptime` field directive appearing in the six formats:
`%d`, `%m`, `%b`, `%Y`. -/
inductive Fld where
  | day
  | mon
  | monAbbr
  | year4
deriving DecidableEq, Repr

/-- All six formats are three fields joined by one separator char. -/
structure DateFmt where
  a : Fld
  b : Fld
  c : Fld
  sep : Char
deriving DecidableEq, Repr

/-- `['%d-%m-%Y', '%Y-%m-%d', '%d/%m/%Y', '%m/%d/%Y', '%d-%b-%Y', '%Y/%m/%d']`
(dashboard.py line 184). -/
def formatList : List DateFmt :=
  [⟨Fld.day, Fld.mon, Fld.year4, '-'⟩,
   ⟨Fld.year4, Fld.mon, Fld.day, '-'⟩,
   ⟨Fld.day, Fld.mon, Fld.year4, '/'⟩,
   ⟨Fld.mon, Fld.day, Fld.year4, '/'⟩,
   ⟨Fld.day, Fld.monAbbr, Fld.year4, '-'⟩,
   ⟨Fld.year4, Fld.mon, Fld.day, '/'⟩]

def monthAbbrs : List String :=
  ["Jan", "Feb", "Mar", "Apr", "May", "Jun", "Jul", "Aug", "Sep", "Oct", "Nov", "Dec"]

def abbrFind (s : String) : List String → Nat → Option Nat
  | [], _ => none
  | a :: t, k => if s = pyLower a then some k else abbrFind s t (k + 1)

/-- Parse one `strptime` field.  The directives match exactly as Python's
`_strptime` regexes do: `%d` is 1-2 digits valued 1..31, `%m` 1-2 digits
valued 1..12, `%Y` exactly 4 digits, `%b` a case-insensitive month
abbreviation. -/
def parseFld : Fld → List Char → Option Nat
  | Fld.day, cs =>
    if cs ≠ [] ∧ cs.length ≤ 2 ∧ cs.all (·.isDigit) ∧ 1 ≤ digitsVal cs ∧ digitsVal cs ≤ 31
    then some (digitsVal cs) else none
  | Fld.mon, cs =>
    if cs ≠ [] ∧ cs.length ≤ 2 ∧ cs.all (·.isDigit) ∧ 1 ≤ digitsVal cs ∧ digitsVal cs ≤ 12
    then some (digitsVal cs) else none
  | Fld.year4, cs =>
    if cs.length = 4 ∧ cs.all (·.isDigit) then some (digitsVal cs) else none
  | Fld.monAbbr, cs => abbrFind (pyLower ⟨cs⟩) monthAbbrs 1

/-- Which date component a field carries: 0 = day, 1 = month, 2 = year. -/
def roleOf : Fld → Nat
  | Fld.day => 0
  | Fld.mon => 1
  | Fld.monAbbr => 1
  | Fld.year4 => 2

def findRole (r : Nat) : List (Fld × Nat) → Option Nat
  | [] => none
  | (f, v) :: t => if roleOf f = r then some v else findRole r t

/-- Split a char list on a separator character (regex literal matching:
the fields of these formats never contain the separator). -/
def splitSep (sep : Char) : List Char → List (List Char)
  | [] => [[]]
  | c :: cs =>
    if c = sep then [] :: splitSep sep cs
    else
      match splitSep sep cs with
      | [] => [[c]]
      | p :: ps => (c :: p) :: ps

def isLeap (y : Nat) : Bool := y % 4 = 0 ∧ (y % 100 ≠ 0 ∨ y % 400 = 0)

def daysInMonth (y m : Nat) : Nat :=
  if m = 2 then (if isLeap y then 29 else 28)
  else if m = 4 ∨ m = 6 ∨ m = 9 ∨ m = 11 then 30 else 31

/-- Calendar validity as `datetime.date` enforces it. -/
def validYMD (y m d : Nat) : Bool :=
  decide (1 ≤ m ∧ m ≤ 12 ∧ 1 ≤ d ∧ d ≤ daysInMonth y m)

/-- `(a,b,c) ≤ (x,y,z)` lexicographically. -/
def tripleLe (a b c x y z : Nat) : Bool :=
  decide (a < x ∨ (a = x ∧ (b < y ∨ (b = y ∧ c ≤ z))))

/-- A midnight `pd.Timestamp` for this calendar date is representable
(nanosecond epoch bounds). -/
def inTsBounds (y m d : Nat) : Bool :=
  tripleLe 1677 9 22 y m d && tripleLe y m d 2262 4 11

/-- `pd.to_datetime(s, format=fmt)` for one of the six explicit formats:
split on the separator, parse the three fields, assemble by role,
validate the calendar date and the Timestamp bounds. -/
def strptimeFmt (fmt : DateFmt) (s : String) : Option PDate :=
  match splitSep fmt.sep s.data with
  | [x, y, z] =>
    match parseFld fmt.a x, parseFld fmt.b y, parseFld fmt.c z with
    | some va, some vb, some vc =>
      let ps := [(fmt.a, va), (fmt.b, vb), (fmt.c, vc)]
      match findRole 0 ps, findRole 1 ps, findRole 2 ps with
      | some d, some m, some yr =>
        if validYMD yr m d && inTsBounds yr m d then some ⟨yr, m, d⟩ else none
      | _, _, _ => none
    | _, _, _ => none
  | _ => none

/-- Try the formats in order; first success wins (dashboard.py 185-189). -/
def tryFormats : List DateFmt → String → Option PDate
  | [], _ => none
  | f :: fs, s =>
    match strptimeFmt f s with
    | some d => some d
    | none => tryFormats fs s

/-- `parse_date` (dashboard.py lines 180-193).  `fb` abstracts the
permissive `pd.to_datetime(date_str, dayfirst=True)` fallback of lines
190-193; it receives the stripped string. -/
def parse_date (fb : String → Option PDate) (v : Value) : Option PDate :=
  match v with
  | Value.null => none
  | _ =>
    let s := pyStrip (pyStr v)
    match tryFormats formatList s with
    | some d => some d
    | none => fb s

/-- `strftime` rendering of one field (zero-padded, as CPython renders
days/months/4-digit years). -/
def renderFld (f : Fld) (dt : PDate) : List Char :=
  match f with
  | Fld.day => pad2Chars dt.day
  | Fld.mon => pad2Chars dt.month
  | Fld.monAbbr => (monthAbbrs.getD (dt.month - 1) "Jan").data
  | Fld.year4 => pad4Chars dt.year

/-- Modelled from the spec: "formatting the parsed date back into that
format" (spec §8 round-trip property).  The rendering direction does not
appear in src/dashboard.py; it is standard `strftime` on the same format
string. -/
def renderFmt (fmt : DateFmt) (dt : PDate) : String :=
  ⟨renderFld fmt.a dt ++ (fmt.sep :: (renderFld fmt.b dt ++ (fmt.sep :: renderFld fmt.c dt)))⟩

/-! ### Numeric extraction: `extract_crash_count` (dashboard.py 196-217) -/

/-- Character class `[\d.]`. -/
def isNumDot (c : Char) : Bool := c.isDigit || c = '.'

/-- Character class `[\d,]`. -/
def isNumComma (c : Char) : Bool := c.isDigit || c = ','

/-- `re.search(r'([\d.]+)\s*<letter>', s)`: leftmost position from which a
maximal `[\d.]+` run, optional whitespace, then `letter` matches.  Returns
the captured group (the run).  Shorter prefixes of a run never match (the
next char is in `[\d.]`, not whitespace or the letter), so taking the
maximal run at each start position is exact backtracking semantics. -/
def searchNumBefore (letter : Char) : List Char → Option (List Char)
  | [] => none
  | c :: rest =>
    if isNumDot c then
      let run := (c :: rest).takeWhile isNumDot
      let after := ((c :: rest).drop run.length).dropWhile isPyWs
      match after with
      | k :: _ => if k = letter then some run else searchNumBefore letter rest
      | [] => searchNumBefore letter rest
    else searchNumBefore letter rest

/-- First match of `re.findall(r'[\d,]+\.?\d*', s)`: maximal `[\d,]+` run
from the leftmost possible start, then an optional dot and digits. -/
def fbSearch : List Char → Option (List Char)
  | [] => none
  | c :: rest =>
    if isNumComma c then
      let run := (c :: rest).takeWhile isNumComma
      let after := (c :: rest).drop run.length
      some (match after with
            | '.' :: a2 => run ++ '.' :: a2.takeWhile (·.isDigit)
            | _ => run)
    else fbSearch rest

/-- Python `float(s)` on a string drawn from the `[\d.,]` regex groups
above (commas already removed): succeeds iff there is at least one digit
and at most one dot.  The (nonnegative decimal) value is represented
exactly as `num / 10 ^ exp` (see the header note on floats). -/
def parsePyFloat (cs : List Char) : Option (Nat × Nat) :=
  if cs.all isNumDot ∧ cs.any (·.isDigit) ∧ cs.count '.' ≤ 1 then
    let ip := cs.takeWhile (·.isDigit)
    let rest := cs.drop ip.length
    let fr := match rest with
              | '.' :: fcs => fcs
              | _ => []
    some (digitsVal ip * 10 ^ fr.length + digitsVal fr, fr.length)
  else none

/-- Python `int(float * mult)` for a parsed nonnegative decimal
`num / 10 ^ exp`: truncation toward zero is floor here, i.e. natural
division `num * mult / 10 ^ exp` — exact integer arithmetic. -/
def truncMul (p : Nat × Nat) (mult : Nat) : Int := (p.1 * mult / 10 ^ p.2 : Nat)

/-- `['', 'NA', 'N/A', '-', 'NONE', 'NULL']` (dashboard.py line 201). -/
def emptyTokens : List String := ["", "NA", "N/A", "-", "NONE", "NULL"]

/-- The K/M branches and the digit-run fallback of `extract_crash_count`
(dashboard.py lines 203-217), on the stripped upper-cased string.
`none` models an uncaught exception: the K and M branches call
`int(float(group) * mult)` with no `try`, so a group that `float`
rejects (e.g. `"."`) raises `ValueError`; the fallback branch wraps its
conversion in `try/except` and degrades to `0`. -/
def extract_core (cs : List Char) : Option Int :=
  match (if cs.contains 'K' then searchNumBefore 'K' cs else none) with
  | some g => (parsePyFloat g).map (fun p => truncMul p 1000)
  | none =>
    match (if cs.contains 'M' then searchNumBefore 'M' cs else none) with
    | some g => (parsePyFloat g).map (fun p => truncMul p 1000000)
    | none =>
      match fbSearch cs with
      | some m =>
        match parsePyFloat (m.filter (· ≠ ',')) with
        | some p => some (truncMul p 1)
        | none => some 0
      | none => some 0

/-- `extract_crash_count` (dashboard.py lines 196-217). -/
def extract_crash_count (v : Value) : Option Int :=
  match v with
  | Value.null => some 0
  | _ =>
    let s := pyUpper (pyStrip (pyStr v))
    if emptyTokens.contains s then some 0
    else extract_core s.data

/-! ### Crash-type classification: `categorize_crash_type` (220-230) -/

/-- `' '.join(str(v).lower() for v in row.values if pd.notna(v))`. -/
def joinLower (cells : List Value) : String :=
  String.intercalate " " ((cells.filter (fun v => notna v)).map (fun v => pyLower (pyStr v)))

def netWords : List String := ["network", "applovin", "unity", "moloco", "ironsource"]

/-- `categorize_crash_type` (dashboard.py lines 220-230), applied to the
cell values of a row in column order. -/
def categorize_crash_type (cells : List Value) : String :=
  let text := joinLower cells
  if hasSub text "anr" || hasSub text "not responding" then "ANR"
  else if hasSub text "fatal" && !hasSub text "non" then "Fatal"
  else if hasSub text "non-fatal" || hasSub text "nonfatal" then "Non-fatal"
  else if netWords.any (fun w => hasSub text w) then "Network"
  else "Non-fatal"

/-! ### Cell normalizers used by `process_dataframe` -/

/-- Python `str.title()` for ASCII: a letter is upper-cased iff the
previous character is not a letter, else lower-cased. -/
def titleAux : Bool → List Char → List Char
  | _, [] => []
  | prev, c :: cs =>
    (if c.isAlpha then (if prev then c.toLower else c.toUpper) else c) :: titleAux c.isAlpha cs

def pyTitle (s : String) : String := ⟨titleAux false s.data⟩

/-- The pandas `Series.str` accessor applied element-wise: strings are
mapped through `f`, everything else (NaN included) becomes NaN. -/
def strCell (f : String → String) (v : Value) : Value :=
  match v with
  | Value.str s => Value.str (f s)
  | _ => Value.null

/-- `.str.strip().str.title()` on one cell (dashboard.py 241, 243). -/
def gameNormCell (v : Value) : Value := strCell pyTitle (strCell pyStrip v)

/-- Game normalization plus `.replace({'Ios': 'iOS', 'IOS': 'iOS'})`
(dashboard.py 243-244). -/
def platNormCell (v : Value) : Value :=
  let w := gameNormCell v
  if w = Value.str "Ios" ∨ w = Value.str "IOS" then Value.str "iOS" else w

/-- `lambda x: str(x).strip() if pd.notna(x) else 'Unknown'`
(dashboard.py 260). -/
def networkNameCell (v : Value) : Value :=
  match v with
  | Value.null => Value.str "Unknown"
  | _ => Value.str (pyStrip (pyStr v))

/-- `df['Game'].fillna('Unknown')` on one cell (dashboard.py 373, 377). -/
def fillnaCell (v : Value) : Value :=
  match v with
  | Value.null => Value.str "Unknown"
  | _ => v

/-! ### Tables and `process_dataframe` (dashboard.py 233-270) -/

/-- A row of cells, in column order. -/
abbrev Row := List Value

/-- A DataFrame: ordered column labels and rows.  DataFrames are
rectangular; theorems that read cells assume `Table.WF`. -/
structure Table where
  headers : List String
  rows : List Row
deriving DecidableEq, Repr

/-- Every row has one cell per column (a DataFrame invariant). -/
def Table.WF (t : Table) : Prop := ∀ r ∈ t.rows, r.length = t.headers.length

instance (t : Table) : Decidable t.WF := by
  unfold Table.WF
  infer_instance

/-- Index of the first column with this label (pandas label lookup). -/
def colIdx : List String → String → Option Nat
  | [], _ => none
  | h :: t, name => if h = name then some 0 else (colIdx t name).map (· + 1)

/-- Index of the first column whose label satisfies `p`
(the `for col in df.columns: if ...: break` loop, dashboard.py 247-250). -/
def colIdxP (p : String → Bool) : List String → Option Nat
  | [] => none
  | h :: t => if p h then some 0 else (colIdxP p t).map (· + 1)

/-- Read a cell by position (rows are rectangular under `Table.WF`). -/
def cellAt (r : Row) (i : Nat) : Value := r.getD i Value.null

/-- Column labels after `df['name'] = ...`: replaced in place when the
label exists, appended otherwise. -/
def setColH (hs : List String) (name : String) : List String :=
  match colIdx hs name with
  | some _ => hs
  | none => hs ++ [name]

/-- One row after `df['name'] = ...` with per-row values. -/
def setCellR (hs : List String) (r : Row) (name : String) (v : Value) : Row :=
  match colIdx hs name with
  | some i => r.set i v
  | none => r ++ [v]

/-- `.str.strip().str.replace('\n', ' ').str.replace('\r', ' ')` on one
column label (dashboard.py 234). -/
def cleanHeader (s : String) : String :=
  replaceCh '\r' ' ' (replaceCh '\n' ' ' (pyStrip s))

/-- Elementwise `Series.apply` with a fallible function: an uncaught
exception in any element propagates (`Option` sequencing). -/
def rowsMapM (f : Row → Option Row) : List Row → Option (List Row)
  | [] => some []
  | r :: rs =>
    match f r, rowsMapM f rs with
    | some r2, some rs2 => some (r2 :: rs2)
    | _, _ => none

/-! `process_dataframe` (dashboard.py lines 233-270), stage by stage.
Each stage is the source's column assignment; the table-level pandas
operation is a per-row map, so stages are per-row functions composed
with `List.map` / `rowsMapM` (for the fallible extraction). -/

/-- Line 234: header cleanup. -/
def hs0 (t : Table) : List String := t.headers.map cleanHeader

/-- `'Date' in df.columns` (lines 236, 264). -/
def dateIdx (t : Table) : Option Nat := colIdx (hs0 t) "Date"

/-- Lines 236-238: parse the Date column, drop unparseable rows. -/
def rowsAfterDate (fb : String → Option PDate) (t : Table) : List Row :=
  match dateIdx t with
  | some i =>
    t.rows.filterMap (fun r =>
      match parse_date fb (cellAt r i) with
      | some d => some (r.set i (Value.date d))
      | none => none)
  | none => t.rows

/-- Lines 240-241: Game column normalization. -/
def rowsAfterGame (fb : String → Option PDate) (t : Table) : List Row :=
  match colIdx (hs0 t) "Game" with
  | some i => (rowsAfterDate fb t).map (fun r => r.set i (gameNormCell (cellAt r i)))
  | none => rowsAfterDate fb t

/-- Lines 242-244: Platform column normalization. -/
def rowsAfterPlat (fb : String → Option PDate) (t : Table) : List Row :=
  match colIdx (hs0 t) "Platform" with
  | some i => (rowsAfterGame fb t).map (fun r => r.set i (platNormCell (cellAt r i)))
  | none => rowsAfterGame fb t

/-- Lines 246-250: first column whose lower-cased label contains
`"crash count"`. -/
def countIdx (t : Table) : Option Nat :=
  colIdxP (fun h => hasSub (pyLower h) "crash count") (hs0 t)

/-- Lines 252-255: one row of the `Crash_Count_Numeric` assignment
(`none` = uncaught exception in `extract_crash_count`). -/
def countRowF (t : Table) (r : Row) : Option Row :=
  match countIdx t with
  | some i => (extract_crash_count (cellAt r i)).map
      (fun n => setCellR (hs0 t) r "Crash_Count_Numeric" (Value.int n))
  | none => some (setCellR (hs0 t) r "Crash_Count_Numeric" (Value.int 0))

def rowsAfterCount (fb : String → Option PDate) (t : Table) : Option (List Row) :=
  rowsMapM (countRowF t) (rowsAfterPlat fb t)

def hs1 (t : Table) : List String := setColH (hs0 t) "Crash_Count_Numeric"

/-- Line 257: `Crash_Type` from the row as it stands after the count
stage (date parsed, Game/Platform normalized, numeric count present). -/
def typeRowF (t : Table) (r : Row) : Row :=
  setCellR (hs1 t) r "Crash_Type" (Value.str (categorize_crash_type r))

def hs2 (t : Table) : List String := setColH (hs1 t) "Crash_Type"

/-- Lines 259-262: `Network_Name`. -/
def netRowF (t : Table) (r : Row) : Row :=
  match colIdx (hs0 t) "Network" with
  | some i => setCellR (hs2 t) r "Network_Name" (networkNameCell (cellAt r i))
  | none => setCellR (hs2 t) r "Network_Name" (Value.str "Unknown")

def hs3 (t : Table) : List String := setColH (hs2 t) "Network_Name"

/-- `.dt.year` on one (already parsed) Date cell. -/
def yearVal (v : Value) : Int :=
  match v with
  | Value.date d => (d.year : Int)
  | _ => 0

/-- `.dt.month` on one Date cell. -/
def monthVal (v : Value) : Int :=
  match v with
  | Value.date d => (d.month : Int)
  | _ => 0

/-- `.dt.to_period('M')` on one Date cell. -/
def periodVal (v : Value) : Value :=
  match v with
  | Value.date d => Value.period d.year d.month
  | _ => Value.null

/-- Lines 265-268, one row: `Year`, `Month`, `Year_Month`,
`Year_Month_Str` (only when a Date column exists). -/
def yearRowF (t : Table) (i : Nat) (r : Row) : Row :=
  setCellR (hs3 t) r "Year" (Value.int (yearVal (cellAt r i)))

def hs4 (t : Table) : List String := setColH (hs3 t) "Year"

def monthRowF (t : Table) (i : Nat) (r : Row) : Row :=
  setCellR (hs4 t) r "Month" (Value.int (monthVal (cellAt r i)))

def hs5 (t : Table) : List String := setColH (hs4 t) "Month"

def ymRowF (t : Table) (i : Nat) (r : Row) : Row :=
  setCellR (hs5 t) r "Year_Month" (periodVal (cellAt r i))

def hs6 (t : Table) : List String := setColH (hs5 t) "Year_Month"

def ymsRowF (t : Table) (i : Nat) (r : Row) : Row :=
  setCellR (hs6 t) r "Year_Month_Str" (Value.str (pyStr (periodVal (cellAt r i))))

def hs7 (t : Table) : List String := setColH (hs6 t) "Year_Month_Str"

/-- Column labels of the processed table. -/
def finalHeaders (t : Table) : List String :=
  match dateIdx t with
  | some _ => hs7 t
  | none => hs3 t

/-- All stages after the (fallible) count stage. -/
def finishRows (t : Table) (rows4 : List Row) : List Row :=
  match dateIdx t with
  | some i =>
    ((((rows4.map (typeRowF t)).map (netRowF t)).map (yearRowF t i)).map
      (monthRowF t i)).map (ymRowF t i) |>.map (ymsRowF t i)
  | none => (rows4.map (typeRowF t)).map (netRowF t)

/-- `process_dataframe` (dashboard.py lines 233-270).  Returns `none`
when the crash-count column extraction raises (see `extract_crash_count`).
`fb` is the permissive date-parse fallback (see `parse_date`). -/
def process_dataframe (fb : String → Option PDate) (t : Table) : Option Table :=
  (rowsAfterCount fb t).map (fun rows4 => Table.mk (finalHeaders t) (finishRows t rows4))

/-! The required-column guard of `main` (dashboard.py lines 370-377):
add a constant `'Unknown'` Platform/Game column when missing, then
`fillna('Unknown')` each (Platform first, then Game, as in the source). -/

/-- `if name not in df.columns: df[name] = 'Unknown'` (lines 371-372,
375-376). -/
def addColIfMissing (t : Table) (name : String) : Table :=
  match colIdx t.headers name with
  | some _ => t
  | none => Table.mk (t.headers ++ [name]) (t.rows.map (fun r => r ++ [Value.str "Unknown"]))

/-- `df[name] = df[name].fillna('Unknown')` (lines 373, 377). -/
def fillCol (t : Table) (name : String) : Table :=
  match colIdx t.headers name with
  | some i => Table.mk t.headers (t.rows.map (fun r => r.set i (fillnaCell (cellAt r i))))
  | none => t

def ensure_columns (t : Table) : Table :=
  fillCol (addColIfMissing (fillCol (addColIfMissing t "Platform") "Platform") "Game") "Game"

/-- Read the cell of record `j` in the column first labelled `name`. -/
def colVal (t : Table) (name : String) (j : Nat) : Option Value :=
  match colIdx t.headers name, t.rows.get? j with
  | some i, some r => some (cellAt r i)
  | _, _ => none

/-! ### Session-state model for `main` (dashboard.py 308-401)

`main` initializes exactly the session keys `df`, `last_refresh` and
`data_source` (lines 310-315).  After a successful load it renders the
sidebar, whose first statement reads `st.session_state.last_upload`
(line 399); Streamlit's `SessionState.__getattr__` raises
`AttributeError` for a key that was never assigned. -/

def initSessionKeys : List String := ["df", "last_refresh", "data_source"]

/-- `st.session_state.<key>`: `AttributeError` when the key is absent. -/
def sessionGetAttr (keys : List String) (key : String) : Except String Unit :=
  if keys.contains key then Except.ok ()
  else Except.error ("AttributeError: st.session_state has no attribute " ++ key)

/-- The post-load render path of `main` for a successfully loaded,
non-empty table (lines 329-399): store the processed table, ensure the
Game/Platform columns, then render the sidebar, whose first access is
`st.session_state.last_upload` (line 399). -/
def main_post_load (fb : String → Option PDate) (t : Table) : Except String Table := do
  match process_dataframe fb t with
  | none => Except.error "exception during process_dataframe"
  | some out =>
    if out.rows.length = 0 then Except.error "st.stop: no data" else
    let fin := ensure_columns out
    -- sidebar (line 399): st.session_state.last_upload
    match sessionGetAttr initSessionKeys "last_upload" with
    | Except.ok _ => Except.ok fin
    | Except.error e => Except.error e

/-! ### Concrete tables and pipeline predicates -/

def C1table : Table :=
  ⟨["Date", "Game", "Platform", "Crash Count", "Type"],
   [[Value.str "01-01-2024", Value.str "candy crush", Value.str "android",
     Value.str "1.5K", Value.str "fatal"]]⟩

def C10table : Table :=
  ⟨["Date", "Game", "Platform", "Crash Count", "Type"],
   [[Value.str "01-01-2024", Value.str "candy crush", Value.str "android",
     Value.str "1.5K", Value.str "fatal"]]⟩

def C3table : Table := ⟨["A", "Platform"], [[Value.str "not", Value.str " responding"]]⟩

def C5table : Table :=
  ⟨["Game", "Platform"],
   [[Value.str "", Value.str ""], [Value.str "nan", Value.str "x"]]⟩

/-- All rows of the list have length `n` (DataFrame rectangularity). -/
def RowsLen (rs : List Row) (n : Nat) : Prop := ∀ r ∈ rs, r.length = n

def C4table : Table :=
  ⟨["Date", "Game"],
   [[Value.str "01-01-2024", Value.str "a"],
    [Value.str "bad", Value.str "b"],
    [Value.str "02-03-2024", Value.str "c"],
    [Value.null, Value.str "d"],
    [Value.str "2024/04/05", Value.str "e"]]⟩

/-- The column labels `process_dataframe` assigns (lines 252-268). -/
def derivedNames : List String :=
  ["Crash_Count_Numeric", "Crash_Type", "Network_Name", "Year", "Month",
   "Year_Month", "Year_Month_Str"]

/-- No cleaned input label collides with a derived label (the usual
case; a collision would make pandas overwrite the input column). -/
def NoDerived (t : Table) : Prop := ∀ n ∈ derivedNames, colIdx (hs0 t) n = none

instance (t : Table) : Decidable (NoDerived t) := by
  unfold NoDerived
  infer_instance

def C3out : Table :=
  ⟨["A", "Platform", "Crash_Count_Numeric", "Crash_Type", "Network_Name"],
   [[Value.str "not", Value.str "Responding", Value.int 0, Value.str "ANR",
     Value.str "Unknown"]]⟩

def C5wTable : Table := ⟨["Type"], [[Value.str "fatal"]]⟩

/-! ### Helper lemmas -/

theorem colIdx_lt {hs : List String} {name : String} {i : Nat}
    (h : colIdx hs name = some i) : i < hs.length := by
  induction hs generalizing i with
  | nil => simp [colIdx] at h
  | cons a t ih =>
    by_cases ha : a = name
    · simp [colIdx, ha] at h
      simp only [List.length_cons]
      omega
    · simp only [colIdx, if_neg ha, Option.map_eq_some'] at h
      obtain ⟨j, hj, rfl⟩ := h
      have := ih hj
      simp only [List.length_cons]
      omega

theorem colIdx_get? {hs : List String} {name : String} {i : Nat}
    (h : colIdx hs name = some i) : hs.get? i = some name := by
  induction hs generalizing i with
  | nil => simp [colIdx] at h
  | cons a t ih =>
    by_cases ha : a = name
    · simp [colIdx, ha] at h
      subst h
      simpa using ha
    · simp only [colIdx, if_neg ha, Option.map_eq_some'] at h
      obtain ⟨j, hj, rfl⟩ := h
      simpa using ih hj

theorem colIdx_append_of_some {hs : List String} {name : String} {i : Nat}
    (l : List String) (h : colIdx hs name = some i) :
    colIdx (hs ++ l) name = some i := by
  induction hs generalizing i with
  | nil => simp [colIdx] at h
  | cons a t ih =>
    by_cases ha : a = name
    · simp [colIdx, ha] at h ⊢
      omega
    · simp only [colIdx, if_neg ha, Option.map_eq_some'] at h
      obtain ⟨j, hj, rfl⟩ := h
      have hih : colIdx (t ++ l) name = some j := ih hj
      show (if a = name then some 0 else (colIdx (t ++ l) name).map (· + 1)) = some (j + 1)
      rw [if_neg ha, hih]
      rfl

theorem colIdx_append_of_none {hs : List String} {name : String}
    (m : String) (h : colIdx hs name = none) :
    colIdx (hs ++ [m]) name = if m = name then some hs.length else none := by
  induction hs with
  | nil => simp [colIdx]
  | cons a t ih =>
    by_cases ha : a = name
    · simp [colIdx, ha] at h
    · simp only [colIdx, if_neg ha, Option.map_eq_none'] at h
      show (if a = name then some 0 else (colIdx (t ++ [m]) name).map (· + 1)) =
        if m = name then some (a :: t).length else none
      rw [if_neg ha, ih h]
      by_cases hm : m = name <;> simp [hm]

/-- Appending never changes the index of a column that exists. -/
theorem colIdx_setColH_of_some {hs : List String} {name m : String} {i : Nat}
    (h : colIdx hs name = some i) : colIdx (setColH hs m) name = some i := by
  unfold setColH
  cases hm : colIdx hs m with
  | some k => exact h
  | none => exact colIdx_append_of_some [m] h

/-- `setColH` with a fresh label puts it right after the old columns. -/
theorem colIdx_setColH_self {hs : List String} {name : String}
    (h : colIdx hs name = none) :
    colIdx (setColH hs name) name = some hs.length := by
  unfold setColH
  rw [h, colIdx_append_of_none name h, if_pos rfl]

/-- A fresh different label stays absent after `setColH`. -/
theorem colIdx_setColH_of_none {hs : List String} {name m : String}
    (hm : m ≠ name) (h : colIdx hs name = none) :
    colIdx (setColH hs m) name = none := by
  unfold setColH
  cases hk : colIdx hs m with
  | some k => exact h
  | none => rw [colIdx_append_of_none m h, if_neg hm]

theorem length_setColH_of_some {hs : List String} {name : String} {i : Nat}
    (h : colIdx hs name = some i) : (setColH hs name).length = hs.length := by
  unfold setColH
  rw [h]

theorem length_setColH_of_none {hs : List String} {name : String}
    (h : colIdx hs name = none) : (setColH hs name).length = hs.length + 1 := by
  unfold setColH
  rw [h]
  simp

theorem cellAt_set_self {r : Row} {i : Nat} (v : Value) (h : i < r.length) :
    cellAt (r.set i v) i = v := by
  unfold cellAt
  rw [List.getD_eq_get?, List.get?_set_eq_of_lt v h]
  rfl

theorem cellAt_set_ne {r : Row} {i j : Nat} (v : Value) (h : j ≠ i) :
    cellAt (r.set j v) i = cellAt r i := by
  unfold cellAt
  rw [List.getD_eq_get?, List.getD_eq_get?, List.get?_set_ne v _ h]

theorem cellAt_append_left {r : Row} {i : Nat} (l : List Value) (h : i < r.length) :
    cellAt (r ++ l) i = cellAt r i := by
  unfold cellAt
  rw [List.getD_eq_get?, List.getD_eq_get?, List.get?_append h]

theorem cellAt_append_self {r : Row} (v : Value) :
    cellAt (r ++ [v]) r.length = v := by
  unfold cellAt
  rw [List.getD_eq_get?, List.get?_concat_length]
  rfl

theorem length_setCellR {hs : List String} {r : Row} (name : String) (v : Value)
    (hr : r.length = hs.length) :
    (setCellR hs r name v).length = (setColH hs name).length := by
  unfold setCellR
  cases h : colIdx hs name with
  | some i => simp [length_setColH_of_some h, hr]
  | none => simp [length_setColH_of_none h, hr]

/-- Writing column `name` then reading it back (rectangular row). -/
theorem cellAt_setCellR_self {hs : List String} {r : Row} {name : String} {i : Nat}
    (v : Value) (hr : r.length = hs.length)
    (hi : colIdx (setColH hs name) name = some i) :
    cellAt (setCellR hs r name v) i = v := by
  unfold setCellR
  cases h : colIdx hs name with
  | some k =>
    have hk : colIdx (setColH hs name) name = some k := colIdx_setColH_of_some h
    rw [hi] at hk
    injection hk with hk
    subst hk
    exact cellAt_set_self v (hr ▸ colIdx_lt h)
  | none =>
    have hk := colIdx_setColH_self h
    rw [hi] at hk
    injection hk with hk
    subst hk
    rw [← hr]
    exact cellAt_append_self v

/-- Writing column `name` leaves the cell of a differently-labelled
column untouched (rectangular row). -/
theorem cellAt_setCellR_ne {hs : List String} {r : Row} {name m : String} {i : Nat}
    (v : Value) (hr : r.length = hs.length)
    (hm : colIdx hs m = some i) (hne : m ≠ name) :
    cellAt (setCellR hs r name v) i = cellAt r i := by
  unfold setCellR
  cases h : colIdx hs name with
  | some k =>
    have hik : k ≠ i := by
      intro hik
      subst hik
      have h1 := colIdx_get? h
      have h2 := colIdx_get? hm
      rw [h1] at h2
      injection h2 with h2
      exact hne h2.symm
    exact cellAt_set_ne v hik
  | none => exact cellAt_append_left [v] (hr ▸ colIdx_lt hm)

theorem rowsMapM_length {f : Row → Option Row} {l l' : List Row}
    (h : rowsMapM f l = some l') : l'.length = l.length := by
  induction l generalizing l' with
  | nil =>
    simp [rowsMapM] at h
    simp [← h]
  | cons r rs ih =>
    unfold rowsMapM at h
    cases hf : f r with
    | none => rw [hf] at h; simp at h
    | some r2 =>
      rw [hf] at h
      cases hrec : rowsMapM f rs with
      | none => rw [hrec] at h; simp at h
      | some rs2 =>
        rw [hrec] at h
        simp at h
        subst h
        simp [ih hrec]

theorem rowsMapM_get? {f : Row → Option Row} {l l' : List Row}
    (h : rowsMapM f l = some l') (j : Nat) {r' : Row}
    (hj : l'.get? j = some r') : ∃ r, l.get? j = some r ∧ f r = some r' := by
  induction l generalizing l' j with
  | nil =>
    simp [rowsMapM] at h
    subst h
    simp at hj
  | cons r rs ih =>
    unfold rowsMapM at h
    cases hf : f r with
    | none => rw [hf] at h; simp at h
    | some r2 =>
      rw [hf] at h
      cases hrec : rowsMapM f rs with
      | none => rw [hrec] at h; simp at h
      | some rs2 =>
        rw [hrec] at h
        simp at h
        subst h
        cases j with
        | zero =>
          have hj' : r2 = r' := Option.some.inj hj
          subst hj'
          exact ⟨r, rfl, hf⟩
        | succ n => exact ih hrec n hj

theorem rowsMapM_mem {f : Row → Option Row} {l l' : List Row}
    (h : rowsMapM f l = some l') {r' : Row} (hr : r' ∈ l') :
    ∃ r ∈ l, f r = some r' := by
  obtain ⟨j, hj⟩ := List.get?_of_mem hr
  obtain ⟨r, hrl, hfr⟩ := rowsMapM_get? h j hj
  exact ⟨r, List.get?_mem hrl, hfr⟩

theorem length_filterMap_countP {α β : Type} (g : α → Option β) (l : List α) :
    (l.filterMap g).length = l.countP (fun x => (g x).isSome) := by
  induction l with
  | nil => rfl
  | cons a t ih =>
    cases h : g a <;>
      simp [List.filterMap_cons, h, List.countP_cons, ih]

/-- None of the explicit empty tokens contains the letter `K`. -/
theorem emptyTokens_no_K {s : String} (h : emptyTokens.contains s = true) :
    s.data.contains 'K' = false := by
  have hmem : s ∈ emptyTokens := by simpa using h
  fin_cases hmem <;> decide

/-- Off the null and empty-token shortcuts, `extract_crash_count` is the
K/M/fallback core on the stripped upper-cased string. -/
theorem extract_eq_core {v : Value} (hv : v ≠ Value.null)
    (hne : emptyTokens.contains (pyUpper (pyStrip (pyStr v))) = false) :
    extract_crash_count v = extract_core (pyUpper (pyStrip (pyStr v))).data := by
  cases v with
  | null => exact absurd rfl hv
  | str s =>
    show (if emptyTokens.contains (pyUpper (pyStrip (pyStr (Value.str s)))) then some 0
      else extract_core (pyUpper (pyStrip (pyStr (Value.str s)))).data) = _
    rw [hne]
    simp
  | int n =>
    show (if emptyTokens.contains (pyUpper (pyStrip (pyStr (Value.int n)))) then some 0
      else extract_core (pyUpper (pyStrip (pyStr (Value.int n)))).data) = _
    rw [hne]
    simp
  | date d =>
    show (if emptyTokens.contains (pyUpper (pyStrip (pyStr (Value.date d)))) then some 0
      else extract_core (pyUpper (pyStrip (pyStr (Value.date d)))).data) = _
    rw [hne]
    simp
  | period y m =>
    show (if emptyTokens.contains (pyUpper (pyStrip (pyStr (Value.period y m)))) then some 0
      else extract_core (pyUpper (pyStrip (pyStr (Value.period y m)))).data) = _
    rw [hne]
    simp

/-! ### Claim theorems -/

/-- **C1**: normalizing the single-row table
`[{"Date":"01-01-2024","Game":"candy crush","Platform":"android",
"Crash Count":"1.5K","Type":"fatal"}]` produces exactly one normalized
record with date 2024-01-01, game "Candy Crush", platform "Android",
crash_count 1500, crash_type Fatal, network_name "Unknown" and
year_month 2024-01 — for any permissive-fallback date parser (the
explicit `%d-%m-%Y` format already matches). -/
theorem C1_end_to_end (fb : String → Option PDate) :
    ∃ out, process_dataframe fb C1table = some out ∧
      out.rows.length = 1 ∧
      colVal out "Date" 0 = some (Value.date ⟨2024, 1, 1⟩) ∧
      colVal out "Game" 0 = some (Value.str "Candy Crush") ∧
      colVal out "Platform" 0 = some (Value.str "Android") ∧
      colVal out "Crash_Count_Numeric" 0 = some (Value.int 1500) ∧
      colVal out "Crash_Type" 0 = some (Value.str "Fatal") ∧
      colVal out "Network_Name" 0 = some (Value.str "Unknown") ∧
      colVal out "Year_Month_Str" 0 = some (Value.str "2024-01") :=
  ⟨_, rfl, rfl, rfl, rfl, rfl, rfl, rfl, rfl, rfl⟩

/-- **C2** (code bug): on the input string `".K"` the extractor reaches
the K branch, captures the group `"."`, and `float(".")` raises an
uncaught `ValueError` (modelled as `none`) instead of returning `0`;
the source's own fallback branch shows the degrade-to-zero intent. -/
theorem C2_extract_raises_on_dot_K :
    extract_crash_count (Value.str ".K") = none := rfl

/-- **C8**: the crash-type classifier is total — every row yields exactly
one of the four labels — and reproduces the spec's five example
classifications (empty row included). -/
theorem C8_classifier_total_and_examples :
    (∀ cells : List Value, categorize_crash_type cells = "ANR" ∨
      categorize_crash_type cells = "Fatal" ∨
      categorize_crash_type cells = "Non-fatal" ∨
      categorize_crash_type cells = "Network") ∧
    categorize_crash_type [Value.str "App Not Responding"] = "ANR" ∧
    categorize_crash_type [Value.str "Fatal crash on launch"] = "Fatal" ∧
    categorize_crash_type [Value.str "non-fatal exception"] = "Non-fatal" ∧
    categorize_crash_type [Value.str "AppLovin SDK timeout"] = "Network" ∧
    categorize_crash_type [] = "Non-fatal" := by
  refine ⟨fun cells => ?_, rfl, rfl, rfl, rfl, rfl⟩
  unfold categorize_crash_type
  dsimp only
  split
  · exact Or.inl rfl
  · split
    · exact Or.inr (Or.inl rfl)
    · split
      · exact Or.inr (Or.inr (Or.inl rfl))
      · split
        · exact Or.inr (Or.inr (Or.inr rfl))
        · exact Or.inr (Or.inr (Or.inl rfl))

/-- **C9** (counterexample): `"2MK"` contains both `K` and `M`, yet the
K-regex finds no decimal number before the `K`, so the value is handled
by the M rule (result `2 * 1,000,000`), not the K rule — refuting
"never under the M rule". -/
theorem C9_counterexample :
    ("2MK".data.contains 'K' = true ∧ "2MK".data.contains 'M' = true) ∧
    extract_crash_count (Value.str "2MK") = some 2000000 ∧
    searchNumBefore 'K' "2MK".data = none :=
  ⟨⟨rfl, rfl⟩, by decide, rfl⟩

/-- **C9** (amended): for a value containing both `K` and `M` (after
strip/uppercase), *if* the K-pattern matches and its captured group
parses as a float, then the K rule applies (group value × 1000), because
the K check is evaluated first; only when the K-pattern fails to match
does the value fall through to the M check. -/
theorem C9_k_checked_first {v : Value} {g : List Char} {p : Nat × Nat}
    (hK : (pyUpper (pyStrip (pyStr v))).data.contains 'K' = true)
    (hM : (pyUpper (pyStrip (pyStr v))).data.contains 'M' = true)
    (hg : searchNumBefore 'K' (pyUpper (pyStrip (pyStr v))).data = some g)
    (hq : parsePyFloat g = some p) :
    extract_crash_count v = some (truncMul p 1000) := by
  have hv : v ≠ Value.null := by
    rintro rfl
    rw [show pyUpper (pyStrip (pyStr Value.null)) = "NAN" from rfl] at hK
    exact absurd hK (by decide)
  have hne : emptyTokens.contains (pyUpper (pyStrip (pyStr v))) = false := by
    cases hc : emptyTokens.contains (pyUpper (pyStrip (pyStr v))) with
    | false => rfl
    | true =>
      rw [emptyTokens_no_K hc] at hK
      exact absurd hK (by simp)
  rw [extract_eq_core hv hne]
  unfold extract_core
  rw [hK]
  simp only [if_true, hg, hq, Option.map_some']

theorem C9_k_checked_first_witness :
    extract_crash_count (Value.str "1.5KM") = some 1500 := by
  have h := C9_k_checked_first (v := Value.str "1.5KM") (g := "1.5".data) (p := (15, 1))
    (by decide) (by decide) (by decide) (by decide)
  rw [h]
  decide

/-- **C10** (code bug): on a successfully loaded non-empty table the
post-load render path reaches the sidebar statement
`if st.session_state.last_upload:` (dashboard.py line 399), but `main`
only ever initializes the session keys `df`, `last_refresh` and
`data_source` (lines 310-315), so the access raises an unhandled
`AttributeError` — the process does not remain interactive. -/
theorem C10_post_load_raises :
    main_post_load (fun _ => none) C10table =
      Except.error "AttributeError: st.session_state has no attribute last_upload" ∧
    initSessionKeys.contains "last_upload" = false :=
  ⟨rfl, rfl⟩

/-- **C3** (counterexample): the pipeline classifies the row
`{A: "not", Platform: " responding"}` as `ANR` — classification runs
*after* Platform is trimmed/title-cased (and after the numeric count
column is appended), so the blob contains `"not responding"` — whereas
the classifier applied to the original, unnormalized cells yields
`Non-fatal` (the raw blob `"not  responding"` has two spaces). -/
theorem C3_counterexample :
    (process_dataframe (fun _ => none) C3table).map
        (fun out => colVal out "Crash_Type" 0) = some (some (Value.str "ANR")) ∧
    categorize_crash_type [Value.str "not", Value.str " responding"] = "Non-fatal" ∧
    ("ANR" : String) ≠ "Non-fatal" :=
  ⟨rfl, rfl, by decide⟩

/-- **C5** (counterexample): a blank Game/Platform cell survives
normalization (and `fillna`) as the empty string, and the literal string
`"nan"` becomes `"Nan"`, not `"Unknown"` — refuting "never empty" and
the `"Nan" → "Unknown"` replacement. -/
theorem C5_counterexample :
    (process_dataframe (fun _ => none) C5table).map (fun out =>
        (colVal (ensure_columns out) "Game" 0,
         colVal (ensure_columns out) "Platform" 0,
         colVal (ensure_columns out) "Game" 1)) =
      some (some (Value.str ""), some (Value.str ""), some (Value.str "Nan")) ∧
    Value.str "" ≠ Value.str "Unknown" ∧ Value.str "Nan" ≠ Value.str "Unknown" :=
  ⟨rfl, by decide, by decide⟩

/-- `tryFormats` returns the first format's result once all earlier
formats fail. -/
theorem tryFormats_first (fs : List DateFmt) (s : String) :
    ∀ (i : Nat) (hi : i < fs.length) (d : PDate),
      (∀ j (hj : j < i), strptimeFmt (fs.get ⟨j, Nat.lt_trans hj hi⟩) s = none) →
      strptimeFmt (fs.get ⟨i, hi⟩) s = some d →
      tryFormats fs s = some d := by
  induction fs with
  | nil => intro i hi; simp at hi
  | cons f fs ih =>
    intro i hi d hnone hsome
    cases i with
    | zero =>
      unfold tryFormats
      rw [show (f :: fs).get ⟨0, hi⟩ = f from rfl] at hsome
      rw [hsome]
    | succ n =>
      have h0 : strptimeFmt f s = none := hnone 0 (Nat.succ_pos n)
      unfold tryFormats
      rw [h0]
      exact ih n (Nat.lt_of_succ_lt_succ hi) d
        (fun j hj => hnone (j + 1) (Nat.succ_lt_succ hj)) hsome

/-- **C6**: the date parser tries the six explicit formats in exactly the
source's order — the first one that parses the (stripped) string wins,
for any fallback — and `parse("31-12-2024")` resolves day-first to
December 31, 2024. -/
theorem C6_format_order :
    (∀ fb : String → Option PDate,
      parse_date fb (Value.str "31-12-2024") = some ⟨2024, 12, 31⟩) ∧
    (∀ (fb : String → Option PDate) (s : String) (i : Nat) (hi : i < formatList.length)
      (d : PDate),
      (∀ j (hj : j < i),
        strptimeFmt (formatList.get ⟨j, Nat.lt_trans hj hi⟩) (pyStrip s) = none) →
      strptimeFmt (formatList.get ⟨i, hi⟩) (pyStrip s) = some d →
      parse_date fb (Value.str s) = some d) := by
  constructor
  · intro fb
    rfl
  · intro fb s i hi d hnone hsome
    have ht := tryFormats_first formatList (pyStrip s) i hi d hnone hsome
    unfold parse_date
    dsimp only [pyStr]
    rw [ht]

theorem C6_format_order_witness :
    parse_date (fun _ => none) (Value.str "31/12/2024") = some ⟨2024, 12, 31⟩ :=
  C6_format_order.2 (fun _ => none) "31/12/2024" 2 (by decide) ⟨2024, 12, 31⟩
    (by
      intro j hj
      interval_cases j <;> rfl)
    (by rfl)

/-- **C7** (counterexample): the first format (`%d-%m-%Y`) accepts the
non-zero-padded string `"1-1-2024"`, but rendering the parsed date back
in that same format gives `"01-01-2024"` ≠ `"1-1-2024"`: the
parse/format round-trip fails for accepted non-canonical inputs. -/
theorem C7_counterexample :
    (⟨Fld.day, Fld.mon, Fld.year4, '-'⟩ : DateFmt) ∈ formatList ∧
    strptimeFmt ⟨Fld.day, Fld.mon, Fld.year4, '-'⟩ "1-1-2024" = some ⟨2024, 1, 1⟩ ∧
    renderFmt ⟨Fld.day, Fld.mon, Fld.year4, '-'⟩ ⟨2024, 1, 1⟩ = "01-01-2024" ∧
    ("01-01-2024" : String) ≠ "1-1-2024" :=
  ⟨by decide, rfl, rfl, by decide⟩

/-! ### Row-length bookkeeping through the pipeline stages -/

theorem rowsLen_map {rs : List Row} {n m : Nat} {f : Row → Row}
    (hf : ∀ r, r.length = n → (f r).length = m) (h : RowsLen rs n) :
    RowsLen (rs.map f) m := by
  intro r' hr'
  obtain ⟨r, hr, rfl⟩ := List.mem_map.mp hr'
  exact hf r (h r hr)

theorem rowsLen_rowsAfterDate (fb : String → Option PDate) (t : Table)
    (hwf : t.WF) : RowsLen (rowsAfterDate fb t) (hs0 t).length := by
  have hlen : (hs0 t).length = t.headers.length := by simp [hs0]
  unfold rowsAfterDate
  cases hd : dateIdx t with
  | none =>
    intro r hr
    rw [hlen]
    exact hwf r hr
  | some i =>
    intro r' hr'
    obtain ⟨r, hrmem, hg⟩ := List.mem_filterMap.mp hr'
    cases hp : parse_date fb (cellAt r i) <;> rw [hp] at hg
    · simp at hg
    · have hg' : r.set i (Value.date _) = r' := Option.some.inj hg
      rw [← hg', List.length_set, hlen]
      exact hwf r hrmem

theorem rowsLen_rowsAfterGame (fb : String → Option PDate) (t : Table)
    (hwf : t.WF) : RowsLen (rowsAfterGame fb t) (hs0 t).length := by
  unfold rowsAfterGame
  cases colIdx (hs0 t) "Game" with
  | none => exact rowsLen_rowsAfterDate fb t hwf
  | some i =>
    exact rowsLen_map (fun r hr => by rw [List.length_set]; exact hr)
      (rowsLen_rowsAfterDate fb t hwf)

theorem rowsLen_rowsAfterPlat (fb : String → Option PDate) (t : Table)
    (hwf : t.WF) : RowsLen (rowsAfterPlat fb t) (hs0 t).length := by
  unfold rowsAfterPlat
  cases colIdx (hs0 t) "Platform" with
  | none => exact rowsLen_rowsAfterGame fb t hwf
  | some i =>
    exact rowsLen_map (fun r hr => by rw [List.length_set]; exact hr)
      (rowsLen_rowsAfterGame fb t hwf)

theorem countRowF_length {t : Table} {r r' : Row}
    (hc : countRowF t r = some r') (hr : r.length = (hs0 t).length) :
    r'.length = (hs1 t).length := by
  unfold countRowF at hc
  cases hci : countIdx t with
  | some i =>
    rw [hci] at hc
    obtain ⟨n, _, rfl⟩ := Option.map_eq_some'.mp hc
    exact length_setCellR _ _ hr
  | none =>
    rw [hci] at hc
    have : setCellR (hs0 t) r "Crash_Count_Numeric" (Value.int 0) = r' := Option.some.inj hc
    rw [← this]
    exact length_setCellR _ _ hr

theorem rowsLen_rows4 {fb : String → Option PDate} {t : Table} {rows4 : List Row}
    (hwf : t.WF) (h4 : rowsAfterCount fb t = some rows4) :
    RowsLen rows4 (hs1 t).length := by
  intro r' hr'
  obtain ⟨r, hrmem, hc⟩ := rowsMapM_mem h4 hr'
  exact countRowF_length hc (rowsLen_rowsAfterPlat fb t hwf r hrmem)

theorem typeRowF_length {t : Table} {r : Row} (hr : r.length = (hs1 t).length) :
    (typeRowF t r).length = (hs2 t).length :=
  length_setCellR _ _ hr

theorem netRowF_length {t : Table} {r : Row} (hr : r.length = (hs2 t).length) :
    (netRowF t r).length = (hs3 t).length := by
  unfold netRowF
  cases colIdx (hs0 t) "Network" <;> exact length_setCellR _ _ hr

theorem yearRowF_length {t : Table} {i : Nat} {r : Row}
    (hr : r.length = (hs3 t).length) : (yearRowF t i r).length = (hs4 t).length :=
  length_setCellR _ _ hr

theorem monthRowF_length {t : Table} {i : Nat} {r : Row}
    (hr : r.length = (hs4 t).length) : (monthRowF t i r).length = (hs5 t).length :=
  length_setCellR _ _ hr

theorem ymRowF_length {t : Table} {i : Nat} {r : Row}
    (hr : r.length = (hs5 t).length) : (ymRowF t i r).length = (hs6 t).length :=
  length_setCellR _ _ hr

/-! ### Length of the processed table -/

theorem length_rowsAfterPlat (fb : String → Option PDate) (t : Table) :
    (rowsAfterPlat fb t).length = (rowsAfterDate fb t).length := by
  unfold rowsAfterPlat rowsAfterGame
  cases colIdx (hs0 t) "Platform" <;> cases colIdx (hs0 t) "Game" <;> simp

theorem length_finishRows (t : Table) (rows4 : List Row) :
    (finishRows t rows4).length = rows4.length := by
  unfold finishRows
  cases dateIdx t <;> simp

theorem process_out_parts {fb : String → Option PDate} {t out : Table}
    (h : process_dataframe fb t = some out) :
    ∃ rows4, rowsAfterCount fb t = some rows4 ∧
      out = Table.mk (finalHeaders t) (finishRows t rows4) := by
  obtain ⟨rows4, h4, hout⟩ := Option.map_eq_some'.mp h
  exact ⟨rows4, h4, hout.symm⟩

theorem process_length {fb : String → Option PDate} {t out : Table}
    (h : process_dataframe fb t = some out) :
    out.rows.length = (rowsAfterDate fb t).length := by
  obtain ⟨rows4, h4, rfl⟩ := process_out_parts h
  show (finishRows t rows4).length = _
  rw [length_finishRows, rowsMapM_length h4, length_rowsAfterPlat]

theorem length_rowsAfterDate_some (fb : String → Option PDate) (t : Table) (i : Nat)
    (h : dateIdx t = some i) :
    (rowsAfterDate fb t).length =
      t.rows.countP (fun r => (parse_date fb (cellAt r i)).isSome) := by
  unfold rowsAfterDate
  rw [h, length_filterMap_countP]
  apply List.countP_congr
  intro r _
  cases hp : parse_date fb (cellAt r i) <;> simp [hp]

theorem length_rowsAfterDate_none (fb : String → Option PDate) (t : Table)
    (h : dateIdx t = none) : (rowsAfterDate fb t).length = t.rows.length := by
  unfold rowsAfterDate
  rw [h]

/-- A written column always has a first index after `setColH`. -/
theorem colIdx_setColH_isSome (hs : List String) (name : String) :
    ∃ k, colIdx (setColH hs name) name = some k := by
  cases h : colIdx hs name with
  | some i => exact ⟨i, colIdx_setColH_of_some h⟩
  | none => exact ⟨hs.length, colIdx_setColH_self h⟩

/-- Every record of a date-bearing processed table carries a string
`Year_Month_Str` cell. -/
theorem colVal_yms {fb : String → Option PDate} {t out : Table}
    (hwf : t.WF) (h : process_dataframe fb t = some out)
    (i : Nat) (hd : dateIdx t = some i) (j : Nat) (hj : j < out.rows.length) :
    ∃ s : String, colVal out "Year_Month_Str" j = some (Value.str s) := by
  obtain ⟨rows4, h4, rfl⟩ := process_out_parts h
  have hjlen : j < (finishRows t rows4).length := hj
  -- unfold the date-branch stage composition
  have hfin : finishRows t rows4 =
      (((((rows4.map (typeRowF t)).map (netRowF t)).map (yearRowF t i)).map
        (monthRowF t i)).map (ymRowF t i)).map (ymsRowF t i) := by
    unfold finishRows
    rw [hd]
  set L9 := ((((rows4.map (typeRowF t)).map (netRowF t)).map (yearRowF t i)).map
    (monthRowF t i)).map (ymRowF t i) with hL9
  have hlen9 : RowsLen L9 (hs6 t).length := by
    rw [hL9]
    exact rowsLen_map (fun r hr => ymRowF_length hr)
      (rowsLen_map (fun r hr => monthRowF_length hr)
        (rowsLen_map (fun r hr => yearRowF_length hr)
          (rowsLen_map (fun r hr => netRowF_length hr)
            (rowsLen_map (fun r hr => typeRowF_length hr) (rowsLen_rows4 hwf h4)))))
  rw [hfin] at hjlen ⊢
  have hj9 : j < L9.length := by
    rw [List.length_map] at hjlen
    exact hjlen
  obtain ⟨r9, hr9⟩ : ∃ r9, L9.get? j = some r9 := by
    rw [List.get?_eq_get hj9]
    exact ⟨_, rfl⟩
  obtain ⟨k, hk⟩ := colIdx_setColH_isSome (hs6 t) "Year_Month_Str"
  refine ⟨pyStr (periodVal (cellAt r9 i)), ?_⟩
  unfold colVal
  have hhead : (Table.mk (finalHeaders t) (L9.map (ymsRowF t i))).headers = hs7 t := by
    show finalHeaders t = hs7 t
    unfold finalHeaders
    rw [hd]
  rw [hhead]
  have hk7 : colIdx (hs7 t) "Year_Month_Str" = some k := hk
  rw [hk7]
  have hget : (L9.map (ymsRowF t i)).get? j = some (ymsRowF t i r9) := by
    rw [List.get?_map, hr9]
    rfl
  show (match some k, (L9.map (ymsRowF t i)).get? j with
    | some i, some r => some (cellAt r i)
    | _, _ => none) = _
  rw [hget]
  have hcell : cellAt (ymsRowF t i r9) k = Value.str (pyStr (periodVal (cellAt r9 i))) :=
    cellAt_setCellR_self _ (hlen9 r9 (List.get?_mem hr9)) hk
  show some (cellAt (ymsRowF t i r9) k) = some (Value.str (pyStr (periodVal (cellAt r9 i))))
  rw [hcell]

/-- **C4**: normalization drops a row iff the (cleaned) header set has a
`Date` column and that row's date is unparseable: with a Date column the
output has exactly one record per parseable-date row, each carrying a
(string) `Year_Month_Str`; without a Date column every row is retained. -/
theorem C4_date_drop_iff (fb : String → Option PDate) (t out : Table)
    (hwf : t.WF) (h : process_dataframe fb t = some out) :
    (∀ i, dateIdx t = some i →
      out.rows.length = t.rows.countP (fun r => (parse_date fb (cellAt r i)).isSome) ∧
      ∀ j, j < out.rows.length →
        ∃ s, colVal out "Year_Month_Str" j = some (Value.str s)) ∧
    (dateIdx t = none → out.rows.length = t.rows.length) := by
  constructor
  · intro i hd
    constructor
    · rw [process_length h, length_rowsAfterDate_some fb t i hd]
    · intro j hj
      exact colVal_yms hwf h i hd j hj
  · intro hd
    rw [process_length h, length_rowsAfterDate_none fb t hd]

theorem C4_date_drop_iff_witness :
    (process_dataframe (fun _ => none) C4table).map (fun out => out.rows.length) =
      some 3 := by
  rcases hp : process_dataframe (fun _ => none) C4table with _ | out
  · exact absurd hp (by decide)
  · have h := (C4_date_drop_iff (fun _ => none) C4table out (by decide) hp).1 0 (by decide)
    rw [Option.map_some', h.1]
    exact congrArg some (by decide)

/-! ### Digit and split lemmas for the date round-trip -/

theorem toNat_digitChar {d : Nat} (h : d ≤ 9) : (digitChar d).toNat = 48 + d := by
  interval_cases d <;> rfl

theorem isDigit_digitChar {d : Nat} (h : d ≤ 9) : (digitChar d).isDigit = true := by
  interval_cases d <;> rfl

theorem pad2Chars_all_digit (n : Nat) : (pad2Chars n).all (·.isDigit) = true := by
  simp only [pad2Chars, List.all_cons, List.all_nil, Bool.and_true]
  rw [isDigit_digitChar (Nat.le_of_lt_succ (Nat.mod_lt _ (by omega))),
    isDigit_digitChar (Nat.le_of_lt_succ (Nat.mod_lt _ (by omega)))]
  rfl

theorem pad4Chars_all_digit (n : Nat) : (pad4Chars n).all (·.isDigit) = true := by
  simp only [pad4Chars, List.all_cons, List.all_nil, Bool.and_true]
  rw [isDigit_digitChar (Nat.le_of_lt_succ (Nat.mod_lt _ (by omega))),
    isDigit_digitChar (Nat.le_of_lt_succ (Nat.mod_lt _ (by omega))),
    isDigit_digitChar (Nat.le_of_lt_succ (Nat.mod_lt _ (by omega))),
    isDigit_digitChar (Nat.le_of_lt_succ (Nat.mod_lt _ (by omega)))]
  rfl

theorem digitsVal_pad2 {n : Nat} (h : n ≤ 99) : digitsVal (pad2Chars n) = n := by
  have t1 : (digitChar (n / 10 % 10)).toNat = 48 + n / 10 % 10 :=
    toNat_digitChar (by omega)
  have t2 : (digitChar (n % 10)).toNat = 48 + n % 10 := toNat_digitChar (by omega)
  simp only [pad2Chars, digitsVal, List.foldl, t1, t2]
  omega

theorem digitsVal_pad4 {n : Nat} (h : n ≤ 9999) : digitsVal (pad4Chars n) = n := by
  have t1 : (digitChar (n / 1000 % 10)).toNat = 48 + n / 1000 % 10 :=
    toNat_digitChar (by omega)
  have t2 : (digitChar (n / 100 % 10)).toNat = 48 + n / 100 % 10 :=
    toNat_digitChar (by omega)
  have t3 : (digitChar (n / 10 % 10)).toNat = 48 + n / 10 % 10 :=
    toNat_digitChar (by omega)
  have t4 : (digitChar (n % 10)).toNat = 48 + n % 10 := toNat_digitChar (by omega)
  simp only [pad4Chars, digitsVal, List.foldl, t1, t2, t3, t4]
  omega

/-- A non-digit character does not occur in an all-digit list. -/
theorem not_mem_of_all_digit {cs : List Char} (h : cs.all (·.isDigit) = true)
    {c : Char} (hc : c.isDigit = false) : c ∉ cs := by
  intro hmem
  have := List.all_eq_true.mp h c hmem
  rw [hc] at this
  exact absurd this (by simp)

theorem splitSep_cons (sep c : Char) (cs : List Char) :
    splitSep sep (c :: cs) =
      if c = sep then [] :: splitSep sep cs
      else match splitSep sep cs with
           | [] => [[c]]
           | p :: ps => (c :: p) :: ps := rfl

theorem splitSep_no_sep {sep : Char} {a : List Char} (h : sep ∉ a) :
    splitSep sep a = [a] := by
  induction a with
  | nil => rfl
  | cons c cs ih =>
    have hc : ¬c = sep := fun hcs => h (hcs ▸ List.mem_cons_self c cs)
    have hcs : sep ∉ cs := fun hm => h (List.mem_cons_of_mem c hm)
    rw [splitSep_cons, if_neg hc, ih hcs]

theorem splitSep_append {sep : Char} {a rest : List Char} (h : sep ∉ a) :
    splitSep sep (a ++ sep :: rest) = a :: splitSep sep rest := by
  induction a with
  | nil =>
    show splitSep sep (sep :: rest) = [] :: splitSep sep rest
    rw [splitSep_cons, if_pos rfl]
  | cons c cs ih =>
    have hc : ¬c = sep := fun hcs => h (hcs ▸ List.mem_cons_self c cs)
    have hcs : sep ∉ cs := fun hm => h (List.mem_cons_of_mem c hm)
    show splitSep sep (c :: (cs ++ sep :: rest)) = (c :: cs) :: splitSep sep rest
    rw [splitSep_cons, if_neg hc, ih hcs]

theorem splitSep_three {sep : Char} {a b c : List Char}
    (ha : sep ∉ a) (hb : sep ∉ b) (hc : sep ∉ c) :
    splitSep sep (a ++ sep :: (b ++ sep :: c)) = [a, b, c] := by
  rw [splitSep_append ha, splitSep_append hb, splitSep_no_sep hc]

theorem parseFld_day {n : Nat} (h1 : 1 ≤ n) (h2 : n ≤ 31) :
    parseFld Fld.day (pad2Chars n) = some n := by
  have hv : digitsVal (pad2Chars n) = n := digitsVal_pad2 (by omega)
  show (if pad2Chars n ≠ [] ∧ (pad2Chars n).length ≤ 2 ∧
      (pad2Chars n).all (·.isDigit) ∧ 1 ≤ digitsVal (pad2Chars n) ∧
      digitsVal (pad2Chars n) ≤ 31
    then some (digitsVal (pad2Chars n)) else none) = some n
  rw [if_pos, hv]
  refine ⟨by simp [pad2Chars], by simp [pad2Chars], pad2Chars_all_digit n, ?_, ?_⟩ <;>
    rw [hv] <;> omega

theorem parseFld_mon {n : Nat} (h1 : 1 ≤ n) (h2 : n ≤ 12) :
    parseFld Fld.mon (pad2Chars n) = some n := by
  have hv : digitsVal (pad2Chars n) = n := digitsVal_pad2 (by omega)
  show (if pad2Chars n ≠ [] ∧ (pad2Chars n).length ≤ 2 ∧
      (pad2Chars n).all (·.isDigit) ∧ 1 ≤ digitsVal (pad2Chars n) ∧
      digitsVal (pad2Chars n) ≤ 12
    then some (digitsVal (pad2Chars n)) else none) = some n
  rw [if_pos, hv]
  refine ⟨by simp [pad2Chars], by simp [pad2Chars], pad2Chars_all_digit n, ?_, ?_⟩ <;>
    rw [hv] <;> omega

theorem parseFld_year4 {y : Nat} (h1 : 1000 ≤ y) (h2 : y ≤ 9999) :
    parseFld Fld.year4 (pad4Chars y) = some y := by
  have hv : digitsVal (pad4Chars y) = y := digitsVal_pad4 (by omega)
  show (if (pad4Chars y).length = 4 ∧ (pad4Chars y).all (·.isDigit)
    then some (digitsVal (pad4Chars y)) else none) = some y
  rw [if_pos ⟨by simp [pad4Chars], pad4Chars_all_digit y⟩, hv]

theorem parseFld_monAbbr {m : Nat} (h1 : 1 ≤ m) (h2 : m ≤ 12) :
    parseFld Fld.monAbbr ((monthAbbrs[m - 1]?).getD "Jan").data = some m := by
  interval_cases m <;> rfl

theorem dash_not_mem_abbr {m : Nat} (h1 : 1 ≤ m) (h2 : m ≤ 12) :
    '-' ∉ (monthAbbrs.getD (m - 1) "Jan").data := by
  interval_cases m <;> decide

theorem daysInMonth_le (y m : Nat) : daysInMonth y m ≤ 31 := by
  unfold daysInMonth
  split
  · split <;> omega
  · split <;> omega

/-- **C7** (amended): the parse/format round-trip holds for canonical
(zero-padded) renderings: for every supported explicit format and every
valid calendar date in the Timestamp-representable range, parsing the
date's rendering in that format succeeds and returns exactly that date.
(For accepted non-padded inputs the round-trip fails, see the
counterexample.) -/
theorem C7_roundtrip_canonical (fmt : DateFmt) (hf : fmt ∈ formatList) (dt : PDate)
    (hv : validYMD dt.year dt.month dt.day = true)
    (hb : inTsBounds dt.year dt.month dt.day = true) :
    strptimeFmt fmt (renderFmt fmt dt) = some dt := by
  obtain ⟨y, m, d⟩ := dt
  simp only at hv hb
  have hval : 1 ≤ m ∧ m ≤ 12 ∧ 1 ≤ d ∧ d ≤ daysInMonth y m := by
    simpa [validYMD] using hv
  have hbnd : 1677 ≤ y ∧ y ≤ 2262 := by
    have hb' := hb
    simp only [inTsBounds, tripleLe, Bool.and_eq_true, decide_eq_true_eq] at hb'
    omega
  have hd31 : d ≤ 31 := le_trans hval.2.2.2 (daysInMonth_le y m)
  have hdig : ('-' : Char).isDigit = false := rfl
  have hdig2 : ('/' : Char).isDigit = false := rfl
  have hmemd2 : ∀ c : Char, c.isDigit = false → ∀ n : Nat, c ∉ pad2Chars n :=
    fun c hc n => not_mem_of_all_digit (pad2Chars_all_digit n) hc
  have hmemd4 : ∀ c : Char, c.isDigit = false → ∀ n : Nat, c ∉ pad4Chars n :=
    fun c hc n => not_mem_of_all_digit (pad4Chars_all_digit n) hc
  fin_cases hf
  · show strptimeFmt ⟨Fld.day, Fld.mon, Fld.year4, '-'⟩ _ = _
    unfold strptimeFmt renderFmt
    dsimp only [renderFld]
    rw [splitSep_three (hmemd2 _ hdig d) (hmemd2 _ hdig m) (hmemd4 _ hdig y)]
    simp [parseFld_day hval.2.2.1 hd31, parseFld_mon hval.1 hval.2.1,
      parseFld_year4 (show 1000 ≤ y by omega) (show y ≤ 9999 by omega),
      findRole, roleOf, hv, hb]
  · show strptimeFmt ⟨Fld.year4, Fld.mon, Fld.day, '-'⟩ _ = _
    unfold strptimeFmt renderFmt
    dsimp only [renderFld]
    rw [splitSep_three (hmemd4 _ hdig y) (hmemd2 _ hdig m) (hmemd2 _ hdig d)]
    simp [parseFld_day hval.2.2.1 hd31, parseFld_mon hval.1 hval.2.1,
      parseFld_year4 (show 1000 ≤ y by omega) (show y ≤ 9999 by omega),
      findRole, roleOf, hv, hb]
  · show strptimeFmt ⟨Fld.day, Fld.mon, Fld.year4, '/'⟩ _ = _
    unfold strptimeFmt renderFmt
    dsimp only [renderFld]
    rw [splitSep_three (hmemd2 _ hdig2 d) (hmemd2 _ hdig2 m) (hmemd4 _ hdig2 y)]
    simp [parseFld_day hval.2.2.1 hd31, parseFld_mon hval.1 hval.2.1,
      parseFld_year4 (show 1000 ≤ y by omega) (show y ≤ 9999 by omega),
      findRole, roleOf, hv, hb]
  · show strptimeFmt ⟨Fld.mon, Fld.day, Fld.year4, '/'⟩ _ = _
    unfold strptimeFmt renderFmt
    dsimp only [renderFld]
    rw [splitSep_three (hmemd2 _ hdig2 m) (hmemd2 _ hdig2 d) (hmemd4 _ hdig2 y)]
    simp [parseFld_day hval.2.2.1 hd31, parseFld_mon hval.1 hval.2.1,
      parseFld_year4 (show 1000 ≤ y by omega) (show y ≤ 9999 by omega),
      findRole, roleOf, hv, hb]
  · show strptimeFmt ⟨Fld.day, Fld.monAbbr, Fld.year4, '-'⟩ _ = _
    unfold strptimeFmt renderFmt
    dsimp only [renderFld]
    rw [splitSep_three (hmemd2 _ hdig d) (dash_not_mem_abbr hval.1 hval.2.1)
      (hmemd4 _ hdig y)]
    simp [parseFld_day hval.2.2.1 hd31, parseFld_monAbbr hval.1 hval.2.1,
      parseFld_year4 (show 1000 ≤ y by omega) (show y ≤ 9999 by omega),
      findRole, roleOf, hv, hb]
  · show strptimeFmt ⟨Fld.year4, Fld.mon, Fld.day, '/'⟩ _ = _
    unfold strptimeFmt renderFmt
    dsimp only [renderFld]
    rw [splitSep_three (hmemd4 _ hdig2 y) (hmemd2 _ hdig2 m) (hmemd2 _ hdig2 d)]
    simp [parseFld_day hval.2.2.1 hd31, parseFld_mon hval.1 hval.2.1,
      parseFld_year4 (show 1000 ≤ y by omega) (show y ≤ 9999 by omega),
      findRole, roleOf, hv, hb]

/-! ### C3 (amended): what the classifier actually sees -/

theorem setCellR_of_none {hs : List String} {name : String} (r : Row) (v : Value)
    (h : colIdx hs name = none) : setCellR hs r name v = r ++ [v] := by
  unfold setCellR
  rw [h]

theorem netRowF_append {t : Table}
    (hNN2 : colIdx (hs2 t) "Network_Name" = none) (r : Row) :
    ∃ v, netRowF t r = r ++ [v] := by
  unfold netRowF
  cases colIdx (hs0 t) "Network" <;> exact ⟨_, setCellR_of_none _ _ hNN2⟩

theorem cellAt_append_cons (A : Row) (x : Value) (l : Row) :
    cellAt (A ++ (x :: l)) A.length = x := by
  unfold cellAt
  rw [List.getD_eq_get?, List.get?_append_right (le_refl _)]
  simp

/-- **C3** (amended): the `Crash_Type` cell of every output record equals
the classifier applied to the record's first `(original column count)+1`
cells — i.e. the row after date parsing, Game/Platform normalization,
and the appended numeric crash count, not the raw input cells. -/
theorem C3_amended_classifier_input (fb : String → Option PDate) (t out : Table)
    (hwf : t.WF) (hnd : NoDerived t) (h : process_dataframe fb t = some out)
    (j : Nat) (r : Row) (hr : out.rows.get? j = some r) :
    colVal out "Crash_Type" j =
      some (Value.str (categorize_crash_type (r.take ((hs0 t).length + 1)))) := by
  obtain ⟨rows4, h4, rfl⟩ := process_out_parts h
  have hCCN0 : colIdx (hs0 t) "Crash_Count_Numeric" = none :=
    hnd _ (by simp [derivedNames])
  have hCT0 : colIdx (hs0 t) "Crash_Type" = none := hnd _ (by simp [derivedNames])
  have hNN0 : colIdx (hs0 t) "Network_Name" = none := hnd _ (by simp [derivedNames])
  have hY0 : colIdx (hs0 t) "Year" = none := hnd _ (by simp [derivedNames])
  have hM0 : colIdx (hs0 t) "Month" = none := hnd _ (by simp [derivedNames])
  have hYM0 : colIdx (hs0 t) "Year_Month" = none := hnd _ (by simp [derivedNames])
  have hYMS0 : colIdx (hs0 t) "Year_Month_Str" = none := hnd _ (by simp [derivedNames])
  have hCT1 : colIdx (hs1 t) "Crash_Type" = none :=
    colIdx_setColH_of_none (by decide) hCT0
  have hNN2 : colIdx (hs2 t) "Network_Name" = none :=
    colIdx_setColH_of_none (by decide) (colIdx_setColH_of_none (by decide) hNN0)
  have hY3 : colIdx (hs3 t) "Year" = none :=
    colIdx_setColH_of_none (by decide) (colIdx_setColH_of_none (by decide)
      (colIdx_setColH_of_none (by decide) hY0))
  have hM4 : colIdx (hs4 t) "Month" = none :=
    colIdx_setColH_of_none (by decide) (colIdx_setColH_of_none (by decide)
      (colIdx_setColH_of_none (by decide) (colIdx_setColH_of_none (by decide) hM0)))
  have hYM5 : colIdx (hs5 t) "Year_Month" = none :=
    colIdx_setColH_of_none (by decide) (colIdx_setColH_of_none (by decide)
      (colIdx_setColH_of_none (by decide) (colIdx_setColH_of_none (by decide)
        (colIdx_setColH_of_none (by decide) hYM0))))
  have hYMS6 : colIdx (hs6 t) "Year_Month_Str" = none :=
    colIdx_setColH_of_none (by decide) (colIdx_setColH_of_none (by decide)
      (colIdx_setColH_of_none (by decide) (colIdx_setColH_of_none (by decide)
        (colIdx_setColH_of_none (by decide) (colIdx_setColH_of_none (by decide)
          hYMS0)))))
  have hlen1 : (hs1 t).length = (hs0 t).length + 1 := length_setColH_of_none hCCN0
  have hr4len : RowsLen rows4 ((hs1 t).length) := rowsLen_rows4 hwf h4
  have hKct : colIdx (hs2 t) "Crash_Type" = some ((hs1 t).length) :=
    colIdx_setColH_self hCT1
  have hKfin : colIdx (finalHeaders t) "Crash_Type" = some ((hs1 t).length) := by
    unfold finalHeaders
    cases hd : dateIdx t with
    | none => exact colIdx_setColH_of_some hKct
    | some i =>
      exact colIdx_setColH_of_some (colIdx_setColH_of_some (colIdx_setColH_of_some
        (colIdx_setColH_of_some (colIdx_setColH_of_some hKct))))
  have eT : ∀ X : Row, typeRowF t X = X ++ [Value.str (categorize_crash_type X)] :=
    fun X => by
      unfold typeRowF
      exact setCellR_of_none _ _ hCT1
  have hfin : (finishRows t rows4).get? j = some r := hr
  -- decompose the output row as (count-stage row) ++ (type cell :: later cells)
  obtain ⟨r4, L, hg4, hreq⟩ : ∃ r4 L, rows4.get? j = some r4 ∧
      r = r4 ++ (Value.str (categorize_crash_type r4) :: L) := by
    unfold finishRows at hfin
    cases hd : dateIdx t with
    | none =>
      rw [hd] at hfin
      rw [List.get?_map, List.get?_map] at hfin
      cases hg4 : rows4.get? j with
      | none =>
        rw [hg4] at hfin
        simp at hfin
      | some r4 =>
        rw [hg4] at hfin
        simp only [Option.map_some'] at hfin
        have hreq : r = netRowF t (typeRowF t r4) := (Option.some.inj hfin).symm
        obtain ⟨nv, hnet⟩ := netRowF_append hNN2 (typeRowF t r4)
        rw [hnet, eT] at hreq
        refine ⟨r4, [nv], rfl, ?_⟩
        simpa [List.append_assoc] using hreq
    | some i =>
      rw [hd] at hfin
      rw [List.get?_map, List.get?_map, List.get?_map, List.get?_map, List.get?_map,
        List.get?_map] at hfin
      cases hg4 : rows4.get? j with
      | none =>
        rw [hg4] at hfin
        simp at hfin
      | some r4 =>
        rw [hg4] at hfin
        simp only [Option.map_some'] at hfin
        have hreq : r = ymsRowF t i (ymRowF t i (monthRowF t i (yearRowF t i
            (netRowF t (typeRowF t r4))))) := (Option.some.inj hfin).symm
        obtain ⟨nv, hnet⟩ := netRowF_append hNN2 (typeRowF t r4)
        have eY : ∀ X : Row, yearRowF t i X = X ++ [Value.int (yearVal (cellAt X i))] :=
          fun X => by
            unfold yearRowF
            exact setCellR_of_none _ _ hY3
        have eM : ∀ X : Row, monthRowF t i X = X ++ [Value.int (monthVal (cellAt X i))] :=
          fun X => by
            unfold monthRowF
            exact setCellR_of_none _ _ hM4
        have eYM : ∀ X : Row, ymRowF t i X = X ++ [periodVal (cellAt X i)] :=
          fun X => by
            unfold ymRowF
            exact setCellR_of_none _ _ hYM5
        have eYMS : ∀ X : Row,
            ymsRowF t i X = X ++ [Value.str (pyStr (periodVal (cellAt X i)))] :=
          fun X => by
            unfold ymsRowF
            exact setCellR_of_none _ _ hYMS6
        rw [eYMS, eYM, eM, eY, hnet, eT] at hreq
        simp only [List.append_assoc, List.singleton_append] at hreq
        exact ⟨r4, _, rfl, hreq⟩
  have hlen4 : r4.length = (hs1 t).length := hr4len r4 (List.get?_mem hg4)
  -- read the Crash_Type cell
  have hcell : cellAt r ((hs1 t).length) = Value.str (categorize_crash_type r4) := by
    rw [hreq, ← hlen4]
    exact cellAt_append_cons _ _ _
  -- the classifier input is exactly the count-stage row
  have htake : r.take ((hs0 t).length + 1) = r4 := by
    rw [hreq, ← hlen1, ← hlen4]
    exact List.take_left r4 _
  unfold colVal
  dsimp only
  rw [hKfin, hfin, htake]
  show some (cellAt r ((hs1 t).length)) = some (Value.str (categorize_crash_type r4))
  rw [hcell]

theorem C3_amended_witness :
    colVal C3out "Crash_Type" 0 =
      some (Value.str (categorize_crash_type
        (([Value.str "not", Value.str "Responding", Value.int 0, Value.str "ANR",
           Value.str "Unknown"] : Row).take ((hs0 C3table).length + 1)))) :=
  C3_amended_classifier_input (fun _ => none) C3table C3out (by decide) (by decide)
    (by rfl) 0 _ (by rfl)

/-! ### C5 (amended): Game/Platform cells in the final table -/

theorem ymsRowF_length {t : Table} {i : Nat} {r : Row}
    (hr : r.length = (hs6 t).length) : (ymsRowF t i r).length = (hs7 t).length :=
  length_setCellR _ _ hr

theorem process_WF {fb : String → Option PDate} {t out : Table}
    (hwf : t.WF) (h : process_dataframe fb t = some out) : out.WF := by
  obtain ⟨rows4, h4, rfl⟩ := process_out_parts h
  intro r hr
  show r.length = (finalHeaders t).length
  have h4len : RowsLen rows4 (hs1 t).length := rowsLen_rows4 hwf h4
  unfold finishRows at hr
  unfold finalHeaders
  cases hd : dateIdx t with
  | none =>
    rw [hd] at hr
    obtain ⟨r5, hr5, rfl⟩ := List.mem_map.mp hr
    obtain ⟨r4, hr4, rfl⟩ := List.mem_map.mp hr5
    exact netRowF_length (typeRowF_length (h4len r4 hr4))
  | some i =>
    rw [hd] at hr
    obtain ⟨r9, hr9, rfl⟩ := List.mem_map.mp hr
    obtain ⟨r8, hr8, rfl⟩ := List.mem_map.mp hr9
    obtain ⟨r7, hr7, rfl⟩ := List.mem_map.mp hr8
    obtain ⟨r6, hr6, rfl⟩ := List.mem_map.mp hr7
    obtain ⟨r5, hr5, rfl⟩ := List.mem_map.mp hr6
    obtain ⟨r4, hr4, rfl⟩ := List.mem_map.mp hr5
    exact ymsRowF_length (ymRowF_length (monthRowF_length (yearRowF_length
      (netRowF_length (typeRowF_length (h4len r4 hr4))))))

theorem gameNormCell_range (v : Value) :
    gameNormCell v = Value.null ∨ ∃ s, gameNormCell v = Value.str s := by
  cases v <;> simp [gameNormCell, strCell]

theorem platNormCell_range (v : Value) :
    platNormCell v = Value.null ∨ ∃ s, platNormCell v = Value.str s := by
  unfold platNormCell
  dsimp only
  split
  · exact Or.inr ⟨_, rfl⟩
  · exact gameNormCell_range v

/-- Every output record's Game (resp. Platform) cell sits at the input
column's index and is null or a string: the `.str` normalizers produce
null or strings, and the later stages only write derived columns. -/
theorem out_cell_range {fb : String → Option PDate} {t out : Table}
    (hwf : t.WF) (h : process_dataframe fb t = some out)
    {name : String} (hname : name = "Game" ∨ name = "Platform")
    {gi : Nat} (hgi : colIdx (hs0 t) name = some gi) :
    colIdx out.headers name = some gi ∧
    ∀ j r, out.rows.get? j = some r →
      (cellAt r gi = Value.null ∨ ∃ s, cellAt r gi = Value.str s) := by
  obtain ⟨rows4, h4, rfl⟩ := process_out_parts h
  have h4len : RowsLen rows4 (hs1 t).length := rowsLen_rows4 hwf h4
  have hgi1 : colIdx (hs1 t) name = some gi := colIdx_setColH_of_some hgi
  have hgi2 : colIdx (hs2 t) name = some gi := colIdx_setColH_of_some hgi1
  have hgi3 : colIdx (hs3 t) name = some gi := colIdx_setColH_of_some hgi2
  have hgi4 : colIdx (hs4 t) name = some gi := colIdx_setColH_of_some hgi3
  have hgi5 : colIdx (hs5 t) name = some gi := colIdx_setColH_of_some hgi4
  have hgi6 : colIdx (hs6 t) name = some gi := colIdx_setColH_of_some hgi5
  have hneCT : name ≠ "Crash_Type" := by rcases hname with h' | h' <;> subst h' <;> decide
  have hneCCN : name ≠ "Crash_Count_Numeric" := by
    rcases hname with h' | h' <;> subst h' <;> decide
  have hneNN : name ≠ "Network_Name" := by rcases hname with h' | h' <;> subst h' <;> decide
  have hneY : name ≠ "Year" := by rcases hname with h' | h' <;> subst h' <;> decide
  have hneM : name ≠ "Month" := by rcases hname with h' | h' <;> subst h' <;> decide
  have hneYM : name ≠ "Year_Month" := by rcases hname with h' | h' <;> subst h' <;> decide
  have hneYMS : name ≠ "Year_Month_Str" := by
    rcases hname with h' | h' <;> subst h' <;> decide
  constructor
  · show colIdx (finalHeaders t) name = some gi
    unfold finalHeaders
    cases dateIdx t with
    | none => exact colIdx_setColH_of_some hgi2
    | some i =>
      exact colIdx_setColH_of_some (colIdx_setColH_of_some (colIdx_setColH_of_some
        (colIdx_setColH_of_some (colIdx_setColH_of_some hgi2))))
  · intro j r hr
    -- walk back from the output row to the count-stage row
    have hstep56 : ∀ r4, r4 ∈ rows4 →
        cellAt (netRowF t (typeRowF t r4)) gi = cellAt r4 gi := by
      intro r4 hr4
      have hl4 : r4.length = (hs1 t).length := h4len r4 hr4
      have hl5 : (typeRowF t r4).length = (hs2 t).length := typeRowF_length hl4
      have e5 : cellAt (typeRowF t r4) gi = cellAt r4 gi :=
        cellAt_setCellR_ne _ hl4 hgi1 hneCT
      have e6 : cellAt (netRowF t (typeRowF t r4)) gi = cellAt (typeRowF t r4) gi := by
        unfold netRowF
        cases colIdx (hs0 t) "Network" <;>
          exact cellAt_setCellR_ne _ hl5 hgi2 hneNN
      rw [e6, e5]
    obtain ⟨r4, hmem4, hcell4⟩ : ∃ r4, r4 ∈ rows4 ∧ cellAt r gi = cellAt r4 gi := by
      have hfin : (finishRows t rows4).get? j = some r := hr
      unfold finishRows at hfin
      cases hd : dateIdx t with
      | none =>
        rw [hd] at hfin
        rw [List.get?_map, List.get?_map] at hfin
        cases hg4 : rows4.get? j with
        | none =>
          rw [hg4] at hfin
          simp at hfin
        | some r4 =>
          rw [hg4] at hfin
          simp only [Option.map_some'] at hfin
          have hre : r = netRowF t (typeRowF t r4) := (Option.some.inj hfin).symm
          refine ⟨r4, List.get?_mem hg4, ?_⟩
          rw [hre]
          exact hstep56 r4 (List.get?_mem hg4)
      | some i =>
        rw [hd] at hfin
        rw [List.get?_map, List.get?_map, List.get?_map, List.get?_map, List.get?_map,
          List.get?_map] at hfin
        cases hg4 : rows4.get? j with
        | none =>
          rw [hg4] at hfin
          simp at hfin
        | some r4 =>
          rw [hg4] at hfin
          simp only [Option.map_some'] at hfin
          have hre : r = ymsRowF t i (ymRowF t i (monthRowF t i (yearRowF t i
              (netRowF t (typeRowF t r4))))) := (Option.some.inj hfin).symm
          have hmem : r4 ∈ rows4 := List.get?_mem hg4
          have hl4 : r4.length = (hs1 t).length := h4len r4 hmem
          have hl5 : (typeRowF t r4).length = (hs2 t).length := typeRowF_length hl4
          have hl6 : (netRowF t (typeRowF t r4)).length = (hs3 t).length :=
            netRowF_length hl5
          have hl7 : (yearRowF t i (netRowF t (typeRowF t r4))).length =
              (hs4 t).length := yearRowF_length hl6
          have hl8 : (monthRowF t i (yearRowF t i (netRowF t (typeRowF t r4)))).length =
              (hs5 t).length := monthRowF_length hl7
          have hl9 : (ymRowF t i (monthRowF t i (yearRowF t i (netRowF t
              (typeRowF t r4))))).length = (hs6 t).length := ymRowF_length hl8
          refine ⟨r4, hmem, ?_⟩
          rw [hre]
          have e10 : cellAt (ymsRowF t i (ymRowF t i (monthRowF t i (yearRowF t i
              (netRowF t (typeRowF t r4)))))) gi =
              cellAt (ymRowF t i (monthRowF t i (yearRowF t i
                (netRowF t (typeRowF t r4))))) gi := by
            unfold ymsRowF
            exact cellAt_setCellR_ne _ hl9 hgi6 hneYMS
          have e9 : cellAt (ymRowF t i (monthRowF t i (yearRowF t i
              (netRowF t (typeRowF t r4))))) gi =
              cellAt (monthRowF t i (yearRowF t i (netRowF t (typeRowF t r4)))) gi := by
            unfold ymRowF
            exact cellAt_setCellR_ne _ hl8 hgi5 hneYM
          have e8 : cellAt (monthRowF t i (yearRowF t i (netRowF t (typeRowF t r4)))) gi =
              cellAt (yearRowF t i (netRowF t (typeRowF t r4))) gi := by
            unfold monthRowF
            exact cellAt_setCellR_ne _ hl7 hgi4 hneM
          have e7 : cellAt (yearRowF t i (netRowF t (typeRowF t r4))) gi =
              cellAt (netRowF t (typeRowF t r4)) gi := by
            unfold yearRowF
            exact cellAt_setCellR_ne _ hl6 hgi3 hneY
          rw [e10, e9, e8, e7]
          exact hstep56 r4 hmem
    -- back from the count stage to the normalized Game/Platform cell
    obtain ⟨r3, hmem3, hcell3⟩ : ∃ r3, r3 ∈ rowsAfterPlat fb t ∧
        cellAt r4 gi = cellAt r3 gi := by
      obtain ⟨r3, hmem3, hc⟩ := rowsMapM_mem h4 hmem4
      have hl3 : r3.length = (hs0 t).length := rowsLen_rowsAfterPlat fb t hwf r3 hmem3
      refine ⟨r3, hmem3, ?_⟩
      unfold countRowF at hc
      cases hci : countIdx t with
      | some ci =>
        rw [hci] at hc
        obtain ⟨n, _, rfl⟩ := Option.map_eq_some'.mp hc
        exact cellAt_setCellR_ne _ hl3 hgi hneCCN
      | none =>
        rw [hci] at hc
        have := Option.some.inj hc
        rw [← this]
        exact cellAt_setCellR_ne _ hl3 hgi hneCCN
    rw [hcell4, hcell3]
    -- the Game/Platform cell after its normalization stage is null or str
    rcases hname with hn | hn
    · -- Game
      subst hn
      have hplres : ∀ r3 ∈ rowsAfterPlat fb t, ∃ r2 ∈ rowsAfterGame fb t,
          cellAt r3 gi = cellAt r2 gi := by
        intro r3 hm3
        unfold rowsAfterPlat at hm3
        cases hp : colIdx (hs0 t) "Platform" with
        | none =>
          rw [hp] at hm3
          exact ⟨r3, hm3, rfl⟩
        | some pi =>
          rw [hp] at hm3
          obtain ⟨r2, hm2, rfl⟩ := List.mem_map.mp hm3
          have hpin : pi ≠ gi := by
            intro hq
            subst hq
            have e1 := colIdx_get? hp
            have e2 := colIdx_get? hgi
            rw [e1] at e2
            exact absurd (Option.some.inj e2) (by decide)
          exact ⟨r2, hm2, cellAt_set_ne _ hpin⟩
      obtain ⟨r2, hm2, hc2⟩ := hplres r3 hmem3
      rw [hc2]
      unfold rowsAfterGame at hm2
      rw [hgi] at hm2
      obtain ⟨r1, hm1, rfl⟩ := List.mem_map.mp hm2
      have hl1 : r1.length = (hs0 t).length := rowsLen_rowsAfterDate fb t hwf r1 hm1
      rw [cellAt_set_self _ (by rw [hl1]; exact colIdx_lt hgi)]
      exact gameNormCell_range _
    · -- Platform
      subst hn
      unfold rowsAfterPlat at hmem3
      rw [hgi] at hmem3
      obtain ⟨r2, hm2, rfl⟩ := List.mem_map.mp hmem3
      have hl2 : r2.length = (hs0 t).length := rowsLen_rowsAfterGame fb t hwf r2 hm2
      rw [cellAt_set_self _ (by rw [hl2]; exact colIdx_lt hgi)]
      exact platNormCell_range _

/-- If a column label is absent from the cleaned input headers and is
not a derived label, it is absent from the processed table's headers. -/
theorem out_col_absent {fb : String → Option PDate} {t out : Table}
    (h : process_dataframe fb t = some out)
    {name : String} (hname : name = "Game" ∨ name = "Platform")
    (hgi : colIdx (hs0 t) name = none) :
    colIdx out.headers name = none := by
  obtain ⟨rows4, h4, rfl⟩ := process_out_parts h
  have hd : ∀ m ∈ derivedNames, m ≠ name := by
    rcases hname with h' | h' <;> subst h' <;> decide
  show colIdx (finalHeaders t) name = none
  have h1 : colIdx (hs1 t) name = none :=
    colIdx_setColH_of_none (hd _ (by simp [derivedNames])) hgi
  have h2 : colIdx (hs2 t) name = none :=
    colIdx_setColH_of_none (hd _ (by simp [derivedNames])) h1
  have h3 : colIdx (hs3 t) name = none :=
    colIdx_setColH_of_none (hd _ (by simp [derivedNames])) h2
  unfold finalHeaders
  cases dateIdx t with
  | none => exact h3
  | some i =>
    have h4' : colIdx (hs4 t) name = none :=
      colIdx_setColH_of_none (hd _ (by simp [derivedNames])) h3
    have h5 : colIdx (hs5 t) name = none :=
      colIdx_setColH_of_none (hd _ (by simp [derivedNames])) h4'
    have h6 : colIdx (hs6 t) name = none :=
      colIdx_setColH_of_none (hd _ (by simp [derivedNames])) h5
    exact colIdx_setColH_of_none (hd _ (by simp [derivedNames])) h6

theorem addColIfMissing_of_some {T : Table} {n : String} {k : Nat}
    (h : colIdx T.headers n = some k) : addColIfMissing T n = T := by
  unfold addColIfMissing
  rw [h]

theorem addColIfMissing_WF {T : Table} (hwf : T.WF) (n : String) :
    (addColIfMissing T n).WF := by
  unfold addColIfMissing
  cases hc : colIdx T.headers n with
  | some i => exact hwf
  | none =>
    intro r hr
    obtain ⟨r0, hr0, rfl⟩ := List.mem_map.mp hr
    simp [hwf r0 hr0]

theorem fillCol_WF {T : Table} (hwf : T.WF) (n : String) : (fillCol T n).WF := by
  unfold fillCol
  cases hc : colIdx T.headers n with
  | some i =>
    intro r hr
    obtain ⟨r0, hr0, rfl⟩ := List.mem_map.mp hr
    simp [hwf r0 hr0]
  | none => exact hwf

theorem fillCol_headers (T : Table) (n : String) :
    (fillCol T n).headers = T.headers := by
  unfold fillCol
  cases colIdx T.headers n <;> rfl

theorem addColIfMissing_length (T : Table) (n : String) :
    (addColIfMissing T n).rows.length = T.rows.length := by
  unfold addColIfMissing
  cases colIdx T.headers n <;> simp

theorem fillCol_length (T : Table) (n : String) :
    (fillCol T n).rows.length = T.rows.length := by
  unfold fillCol
  cases colIdx T.headers n <;> simp

theorem ensure_length (T : Table) :
    (ensure_columns T).rows.length = T.rows.length := by
  unfold ensure_columns
  rw [fillCol_length, addColIfMissing_length, fillCol_length, addColIfMissing_length]

theorem colVal_eq_map {T : Table} {n : String} {i : Nat}
    (h : colIdx T.headers n = some i) (j : Nat) :
    colVal T n j = (T.rows.get? j).map (fun r => cellAt r i) := by
  unfold colVal
  rw [h]
  cases T.rows.get? j <;> rfl

theorem addColIfMissing_get?_preserve {T : Table} (hwf : T.WF) (n : String)
    {m : String} {i : Nat} (hm : colIdx T.headers m = some i) (j : Nat) :
    colIdx (addColIfMissing T n).headers m = some i ∧
    ((addColIfMissing T n).rows.get? j).map (fun r => cellAt r i) =
      (T.rows.get? j).map (fun r => cellAt r i) := by
  unfold addColIfMissing
  cases hc : colIdx T.headers n with
  | some k => exact ⟨hm, rfl⟩
  | none =>
    refine ⟨colIdx_append_of_some _ hm, ?_⟩
    show ((T.rows.map (fun r => r ++ [Value.str "Unknown"])).get? j).map
      (fun r => cellAt r i) = _
    rw [List.get?_map]
    cases hg : T.rows.get? j with
    | none => rfl
    | some r =>
      simp only [Option.map_some']
      rw [cellAt_append_left _ (by rw [hwf r (List.get?_mem hg)]; exact colIdx_lt hm)]

theorem addColIfMissing_get?_new {T : Table} (hwf : T.WF) {n : String}
    (hn : colIdx T.headers n = none) (j : Nat) :
    colIdx (addColIfMissing T n).headers n = some T.headers.length ∧
    ((addColIfMissing T n).rows.get? j).map (fun r => cellAt r T.headers.length) =
      (T.rows.get? j).map (fun _ => Value.str "Unknown") := by
  unfold addColIfMissing
  rw [hn]
  constructor
  · show colIdx (T.headers ++ [n]) n = some T.headers.length
    rw [colIdx_append_of_none n hn, if_pos rfl]
  · show ((T.rows.map (fun r => r ++ [Value.str "Unknown"])).get? j).map
      (fun r => cellAt r T.headers.length) = _
    rw [List.get?_map]
    cases hg : T.rows.get? j with
    | none => rfl
    | some r =>
      simp only [Option.map_some']
      rw [← hwf r (List.get?_mem hg), cellAt_append_self]

theorem fillCol_get?_preserve {T : Table} (n : String) {m : String} {i : Nat}
    (hm : colIdx T.headers m = some i) (hne : m ≠ n) (j : Nat) :
    ((fillCol T n).rows.get? j).map (fun r => cellAt r i) =
      (T.rows.get? j).map (fun r => cellAt r i) := by
  unfold fillCol
  cases hc : colIdx T.headers n with
  | none => rfl
  | some k =>
    have hki : k ≠ i := by
      intro hq
      subst hq
      have e1 := colIdx_get? hc
      have e2 := colIdx_get? hm
      rw [e1] at e2
      exact hne (Option.some.inj e2).symm
    show ((T.rows.map (fun r => r.set k (fillnaCell (cellAt r k)))).get? j).map
      (fun r => cellAt r i) = _
    rw [List.get?_map]
    cases hg : T.rows.get? j with
    | none => rfl
    | some r =>
      simp only [Option.map_some']
      rw [cellAt_set_ne _ hki]

theorem fillCol_get?_self {T : Table} (hwf : T.WF) {n : String} {i : Nat}
    (hn : colIdx T.headers n = some i) (j : Nat) :
    ((fillCol T n).rows.get? j).map (fun r => cellAt r i) =
      (T.rows.get? j).map (fun r => fillnaCell (cellAt r i)) := by
  unfold fillCol
  rw [hn]
  show ((T.rows.map (fun r => r.set i (fillnaCell (cellAt r i)))).get? j).map
    (fun r => cellAt r i) = _
  rw [List.get?_map]
  cases hg : T.rows.get? j with
  | none => rfl
  | some r =>
    simp only [Option.map_some']
    rw [cellAt_set_self _ (by rw [hwf r (List.get?_mem hg)]; exact colIdx_lt hn)]

/-- Reading a present Game/Platform column after `main`'s
required-column guard: the cell is the processed cell with nulls
replaced by `"Unknown"`. -/
theorem ensure_read_present {T : Table} (hwfT : T.WF) {name : String}
    (hname : name = "Game" ∨ name = "Platform") {gi : Nat}
    (hgi : colIdx T.headers name = some gi) (j : Nat) :
    colVal (ensure_columns T) name j =
      (T.rows.get? j).map (fun r => fillnaCell (cellAt r gi)) := by
  unfold ensure_columns
  rcases hname with hn | hn
  · subst hn
    obtain ⟨h1idx, h1cell⟩ := addColIfMissing_get?_preserve hwfT "Platform" hgi j
    have hwf1 : (addColIfMissing T "Platform").WF := addColIfMissing_WF hwfT _
    have h2idx : colIdx (fillCol (addColIfMissing T "Platform") "Platform").headers
        "Game" = some gi := by
      rw [fillCol_headers]
      exact h1idx
    have h2cell := fillCol_get?_preserve "Platform" h1idx (by decide) j
    have hwf2 : (fillCol (addColIfMissing T "Platform") "Platform").WF :=
      fillCol_WF hwf1 _
    rw [addColIfMissing_of_some h2idx]
    have h4idx : colIdx (fillCol (fillCol (addColIfMissing T "Platform") "Platform")
        "Game").headers "Game" = some gi := by
      rw [fillCol_headers]
      exact h2idx
    rw [colVal_eq_map h4idx j, fillCol_get?_self hwf2 h2idx j]
    have := congrArg (Option.map fillnaCell) (h2cell.trans h1cell)
    simpa [Option.map_map, Function.comp_def] using this
  · subst hn
    rw [addColIfMissing_of_some hgi]
    have h2idx : colIdx (fillCol T "Platform").headers "Platform" = some gi := by
      rw [fillCol_headers]
      exact hgi
    have hwf2 : (fillCol T "Platform").WF := fillCol_WF hwfT _
    obtain ⟨h3idx, h3cell⟩ := addColIfMissing_get?_preserve hwf2 "Game" h2idx j
    have hwf3 : (addColIfMissing (fillCol T "Platform") "Game").WF :=
      addColIfMissing_WF hwf2 _
    have h4idx : colIdx (fillCol (addColIfMissing (fillCol T "Platform") "Game")
        "Game").headers "Platform" = some gi := by
      rw [fillCol_headers]
      exact h3idx
    rw [colVal_eq_map h4idx j, fillCol_get?_preserve "Game" h3idx (by decide) j,
      h3cell, fillCol_get?_self hwfT hgi j]

/-- Reading an absent Game/Platform column after `main`'s
required-column guard: every record shows `"Unknown"`. -/
theorem ensure_read_absent {T : Table} (hwfT : T.WF) {name : String}
    (hname : name = "Game" ∨ name = "Platform")
    (hgi : colIdx T.headers name = none) (j : Nat) (hj : j < T.rows.length) :
    colVal (ensure_columns T) name j = some (Value.str "Unknown") := by
  obtain ⟨r, hr⟩ : ∃ r, T.rows.get? j = some r := by
    rw [List.get?_eq_get hj]
    exact ⟨_, rfl⟩
  unfold ensure_columns
  rcases hname with hn | hn
  · subst hn
    -- Platform stages keep "Game" absent
    have h1idx : colIdx (addColIfMissing T "Platform").headers "Game" = none := by
      unfold addColIfMissing
      cases hc : colIdx T.headers "Platform" with
      | some k => exact hgi
      | none =>
        show colIdx (T.headers ++ ["Platform"]) "Game" = none
        rw [colIdx_append_of_none _ hgi, if_neg (by decide)]
    have hwf1 : (addColIfMissing T "Platform").WF := addColIfMissing_WF hwfT _
    have h2idx : colIdx (fillCol (addColIfMissing T "Platform") "Platform").headers
        "Game" = none := by
      rw [fillCol_headers]
      exact h1idx
    have hwf2 : (fillCol (addColIfMissing T "Platform") "Platform").WF :=
      fillCol_WF hwf1 _
    obtain ⟨h3idx, h3cell⟩ := addColIfMissing_get?_new hwf2 h2idx j
    have hwf3 : (addColIfMissing (fillCol (addColIfMissing T "Platform") "Platform")
        "Game").WF := addColIfMissing_WF hwf2 _
    have h4idx : colIdx (fillCol (addColIfMissing (fillCol (addColIfMissing T
        "Platform") "Platform") "Game") "Game").headers "Game" =
        some (fillCol (addColIfMissing T "Platform") "Platform").headers.length := by
      rw [fillCol_headers]
      exact h3idx
    rw [colVal_eq_map h4idx j, fillCol_get?_self hwf3 h3idx j]
    have := congrArg (Option.map fillnaCell) h3cell
    simp only [Option.map_map, Function.comp_def] at this
    rw [this]
    have hlen2 : (fillCol (addColIfMissing T "Platform") "Platform").rows.length =
        T.rows.length := by
      rw [fillCol_length, addColIfMissing_length]
    obtain ⟨r2, hr2⟩ : ∃ r2,
        (fillCol (addColIfMissing T "Platform") "Platform").rows.get? j = some r2 := by
      rw [List.get?_eq_get (by rw [hlen2]; exact hj)]
      exact ⟨_, rfl⟩
    rw [hr2]
    rfl
  · subst hn
    -- the Platform column is created and filled, then Game stages keep it
    obtain ⟨h1idx, h1cell⟩ := addColIfMissing_get?_new hwfT hgi j
    have hwf1 : (addColIfMissing T "Platform").WF := addColIfMissing_WF hwfT _
    have h2cell := fillCol_get?_self hwf1 h1idx j
    have h2idx : colIdx (fillCol (addColIfMissing T "Platform") "Platform").headers
        "Platform" = some T.headers.length := by
      rw [fillCol_headers]
      exact h1idx
    have hwf2 : (fillCol (addColIfMissing T "Platform") "Platform").WF :=
      fillCol_WF hwf1 _
    obtain ⟨h3idx, h3cell⟩ := addColIfMissing_get?_preserve hwf2 "Game" h2idx j
    have h4idx : colIdx (fillCol (addColIfMissing (fillCol (addColIfMissing T
        "Platform") "Platform") "Game") "Game").headers "Platform" =
        some T.headers.length := by
      rw [fillCol_headers]
      exact h3idx
    rw [colVal_eq_map h4idx j, fillCol_get?_preserve "Game" h3idx (by decide) j,
      h3cell, h2cell]
    have := congrArg (Option.map fillnaCell) h1cell
    simp only [Option.map_map, Function.comp_def] at this
    rw [this, hr]
    rfl

/-- **C5** (amended): in the table `main` hands to the dashboard, the
Game and Platform cells are always strings — an absent column (or a
null/non-string cell) yields `"Unknown"` — though a string cell is only
trimmed/title-cased and may remain blank or `"Nan"`. -/
theorem C5_game_platform_never_null (fb : String → Option PDate) (t out : Table)
    (hwf : t.WF) (h : process_dataframe fb t = some out) :
    (∀ j, j < (ensure_columns out).rows.length →
      (∃ s, colVal (ensure_columns out) "Game" j = some (Value.str s)) ∧
      (∃ s, colVal (ensure_columns out) "Platform" j = some (Value.str s))) ∧
    (colIdx (hs0 t) "Game" = none → ∀ j, j < (ensure_columns out).rows.length →
      colVal (ensure_columns out) "Game" j = some (Value.str "Unknown")) ∧
    (colIdx (hs0 t) "Platform" = none → ∀ j, j < (ensure_columns out).rows.length →
      colVal (ensure_columns out) "Platform" j = some (Value.str "Unknown")) := by
  have hwfo : out.WF := process_WF hwf h
  have hlen : (ensure_columns out).rows.length = out.rows.length := ensure_length out
  have hone : ∀ name, (name = "Game" ∨ name = "Platform") → ∀ j,
      j < (ensure_columns out).rows.length →
      ∃ s, colVal (ensure_columns out) name j = some (Value.str s) := by
    intro name hname j hj
    rw [hlen] at hj
    cases hg : colIdx (hs0 t) name with
    | none =>
      exact ⟨"Unknown", ensure_read_absent hwfo hname
        (out_col_absent h hname hg) j hj⟩
    | some gi =>
      obtain ⟨hidx, hrange⟩ := out_cell_range hwf h hname hg
      have hread := ensure_read_present hwfo hname hidx j
      obtain ⟨r, hr⟩ : ∃ r, out.rows.get? j = some r := by
        rw [List.get?_eq_get hj]
        exact ⟨_, rfl⟩
      rw [hr] at hread
      simp only [Option.map_some'] at hread
      rcases hrange j r hr with hnull | ⟨s, hs⟩
      · refine ⟨"Unknown", ?_⟩
        rw [hread, hnull]
        rfl
      · refine ⟨s, ?_⟩
        rw [hread, hs]
        rfl
  refine ⟨fun j hj => ⟨hone "Game" (Or.inl rfl) j hj, hone "Platform" (Or.inr rfl) j hj⟩,
    ?_, ?_⟩
  · intro hg j hj
    rw [hlen] at hj
    exact ensure_read_absent hwfo (Or.inl rfl) (out_col_absent h (Or.inl rfl) hg) j hj
  · intro hg j hj
    rw [hlen] at hj
    exact ensure_read_absent hwfo (Or.inr rfl) (out_col_absent h (Or.inr rfl) hg) j hj

theorem C5_game_platform_never_null_witness :
    (process_dataframe (fun _ => none) C5wTable).map (fun out =>
      (colVal (ensure_columns out) "Game" 0,
       colVal (ensure_columns out) "Platform" 0)) =
      some (some (Value.str "Unknown"), some (Value.str "Unknown")) := by
  rcases hp : process_dataframe (fun _ => none) C5wTable with _ | out
  · exact absurd hp (by decide)
  · have hl : out.rows.length = 1 := by
      rw [process_length hp, length_rowsAfterDate_none _ _ (by decide)]
      rfl
    have hj : 0 < (ensure_columns out).rows.length := by
      rw [ensure_length, hl]
      omega
    have h := C5_game_platform_never_null (fun _ => none) C5wTable out (by decide) hp
    have hG := h.2.1 (by decide) 0 hj
    have hP := h.2.2 (by decide) 0 hj
    rw [Option.map_some']
    rw [hG, hP]

theorem C7_roundtrip_canonical_witness :
    strptimeFmt ⟨Fld.day, Fld.mon, Fld.year4, '-'⟩
      (renderFmt ⟨Fld.day, Fld.mon, Fld.year4, '-'⟩ ⟨2024, 12, 31⟩) =
      some ⟨2024, 12, 31⟩ :=
  C7_roundtrip_canonical ⟨Fld.day, Fld.mon, Fld.year4, '-'⟩ (by decide)
    ⟨2024, 12, 31⟩ (by decide) (by decide)

end Crash
